import Mathlib

/-!
Verification of the entity-component core of the rotmg-clone arcade shooter.

The development shallowly embeds the ECS data model and the per-frame
systems (MovementSystem, BulletSystem, CollisionSystem, ParticleSystem)
from the TypeScript source.  JavaScript numbers are modelled as rationals
(ℚ); every constant appearing in the claims (0.5, 4.0, 25, 2, 10, 0.4, …)
is exactly representable.  Square-root based vector normalization (used by
MovementSystem for the move direction, and by the camera collaborator for
the projected basis vectors) has no rational closed form, so it is passed
in as an explicit function parameter; all theorems hold for every choice
of that parameter.  The miniplex registry semantics are modelled exactly:
addComponent is a no-op when the component is already present,
removeComponent is a no-op when it is absent, and queries are live; the
systems iterate over a snapshot of the matching entity identifiers and
read the evolving world at access time, which matches the source's
Array.from snapshots (CollisionSystem) and miniplex's removal-tolerant
iteration (BulletSystem.update).
-/

namespace Rotmg

/-- World-space vector, as used by babylon's Vector3 (components modelled as ℚ). -/
structure Vec3 where
  x : ℚ
  y : ℚ
  z : ℚ
deriving DecidableEq, Repr

namespace Vec3

def add (a b : Vec3) : Vec3 := ⟨a.x + b.x, a.y + b.y, a.z + b.z⟩

def sub (a b : Vec3) : Vec3 := ⟨a.x - b.x, a.y - b.y, a.z - b.z⟩

def scale (a : Vec3) (c : ℚ) : Vec3 := ⟨a.x * c, a.y * c, a.z * c⟩

/-- Squared length, as used by the source's lengthSquared checks. -/
def lengthSq (a : Vec3) : ℚ := a.x * a.x + a.y * a.y + a.z * a.z

def zero : Vec3 := ⟨0, 0, 0⟩

end Vec3

/-- Data of the Bullet component (damage, remaining lifespan, owner id). -/
structure BulletData where
  damage : ℚ
  lifespan : ℚ
  firedBy : Nat
deriving DecidableEq, Repr

/-- Data of the Health component. -/
structure HealthData where
  hp : ℚ
  maxHp : ℚ
deriving DecidableEq, Repr

/-- Axis-aligned bounding box: babylon BoundingInfo reduced to its
minimum/maximum world corners, which is all the source uses
(BoundingInfo constructor, reConstruct, and intersects with precise=false). -/
structure AABB where
  minimum : Vec3
  maximum : Vec3
deriving DecidableEq, Repr

/-- babylon BoundingBox.Intersects: axis-aligned interval overlap with an
early false return per axis, touching boxes counting as intersecting. -/
def AABB.intersects (a b : AABB) : Bool :=
  if a.maximum.x < b.minimum.x ∨ a.minimum.x > b.maximum.x then false
  else if a.maximum.y < b.minimum.y ∨ a.minimum.y > b.maximum.y then false
  else if a.maximum.z < b.minimum.z ∨ a.minimum.z > b.maximum.z then false
  else true

/-- An entity of the miniplex world: an identifier plus the optional
components of world.ts's Entity type.  Transform is its pos field,
Velocity its vel field, Collidable its boundingInfo, and of SpriteRef we
keep the isVisible flag (the only SpriteRef field the modelled systems
write that the claims mention). -/
structure Entity where
  id : Nat
  transform : Option Vec3
  velocity : Option Vec3
  health : Option HealthData
  bullet : Option BulletData
  collidable : Option AABB
  spriteVisible : Bool
  player : Bool
deriving DecidableEq, Repr

/-- The miniplex world: the registered entities in insertion order (query
buckets iterate in a fixed order; the claims' first-match statements are
relative to this order). -/
abbrev World := List Entity

/-- Read an entity by identifier (the source holds direct object
references; we look the object up by its unique id). -/
def lookup (w : World) (i : Nat) : Option Entity :=
  w.find? (fun e => e.id == i)

/-- Apply an in-place mutation to the entity with the given id. -/
def updateEntity (w : World) (i : Nat) (f : Entity → Entity) : World :=
  w.map (fun e => if e.id = i then f e else e)

/-- miniplex addComponent: returns early when the component is already
present (it never overwrites). -/
def addBullet (d : BulletData) (e : Entity) : Entity :=
  match e.bullet with
  | some _ => e
  | none => { e with bullet := some d }

def addTransform (p : Vec3) (e : Entity) : Entity :=
  match e.transform with
  | some _ => e
  | none => { e with transform := some p }

def addVelocity (v : Vec3) (e : Entity) : Entity :=
  match e.velocity with
  | some _ => e
  | none => { e with velocity := some v }

def addCollidable (b : AABB) (e : Entity) : Entity :=
  match e.collidable with
  | some _ => e
  | none => { e with collidable := some b }

/-- Component accessors used throughout the statements. -/
def healthOf (w : World) (i : Nat) : Option HealthData :=
  (lookup w i).bind (·.health)

def bulletOf (w : World) (i : Nat) : Option BulletData :=
  (lookup w i).bind (·.bullet)

def transformOf (w : World) (i : Nat) : Option Vec3 :=
  (lookup w i).bind (·.transform)

def velocityOf (w : World) (i : Nat) : Option Vec3 :=
  (lookup w i).bind (·.velocity)

def collidableOf (w : World) (i : Nat) : Option AABB :=
  (lookup w i).bind (·.collidable)

/-! ## BulletSystem (BulletSystem.ts) -/

def BULLET_SPEED : ℚ := 25

def BULLET_LIFESPAN : ℚ := 2

def BULLET_DAMAGE : ℚ := 10

/-- Half extent of the bullet bounding box (new Vector3(0.5, 0.5, 0.5)). -/
def bulletHalfExtent : Vec3 := ⟨1/2, 1/2, 1/2⟩

/-- The BulletSystem-owned state: the shared world plus the free pool.
The pool is the source's JS array used as a stack; the head of this list
corresponds to the array's end, where push and pop operate. -/
structure BSState where
  world : World
  pool : List Nat
deriving DecidableEq

/-- The pre-allocated pool entities hold only the (invisible) SpriteRef. -/
def blankEntity (i : Nat) : Entity :=
  { id := i, transform := none, velocity := none, health := none,
    bullet := none, collidable := none, spriteVisible := false, player := false }

/-- BulletSystem constructor: pre-allocates the pool entities bullet_0 …
bullet_(n-1) and pushes each onto the free pool in order, so the last
created one is on top.  The source fixes n = BULLET_POOL_SIZE = 256; the
claims quantify over the capacity. -/
def initBulletSystem (n : Nat) : BSState :=
  { world := (List.range n).map blankEntity,
    pool := (List.range n).reverse }

/-- The component attachments performed on the popped entity by
fireBullet, in source order, followed by the direct isVisible mutation. -/
def activateBullet (firedBy : Nat) (spawnPosition velocity : Vec3) (e : Entity) : Entity :=
  let e1 := addBullet ⟨BULLET_DAMAGE, BULLET_LIFESPAN, firedBy⟩ e
  let e2 := addTransform spawnPosition e1
  let e3 := addVelocity velocity e2
  let e4 := addCollidable
    ⟨spawnPosition.sub bulletHalfExtent, spawnPosition.add bulletHalfExtent⟩ e3
  { e4 with spriteVisible := true }

/-- BulletSystem.fireBullet: pops a pooled entity (silently doing nothing
when the pool is empty) and activates it.  The velocity is
direction.scale(BULLET_SPEED) (the source does not normalize; its doc
comment asks the caller for a normalized direction).  The spawn position
is position + direction*0.5 with its y coordinate then forced to 4.0.
The SpriteRef update goes through addComponent, which is a no-op on the
present component; the subsequent direct mutation is what sets
isVisible to true. -/
def fireBullet (s : BSState) (firedBy : Nat) (position direction : Vec3) : BSState :=
  match s.pool with
  | [] => s
  | top :: rest =>
    let velocity := direction.scale BULLET_SPEED
    let spawn0 := position.add (direction.scale (1/2))
    let spawnPosition : Vec3 := { spawn0 with y := 4 }
    { world := updateEntity s.world top (activateBullet firedBy spawnPosition velocity),
      pool := rest }

/-- The component removals performed by returnBullet (SpriteRef stays, its
modelled visibility unchanged — see returnBullet). -/
def deactivateBullet (e : Entity) : Entity :=
  { e with bullet := none, transform := none, velocity := none, collidable := none }

/-- BulletSystem.returnBullet: removes the gameplay components and pushes
the identifier back onto the pool, unconditionally — there is no
active/inactive guard, so a second call on the same entity pushes it a
second time.  The SpriteRef isVisible=false update goes through
addComponent, which is a no-op on a present component, so the modelled
visibility flag is unchanged here. -/
def returnBullet (s : BSState) (i : Nat) : BSState :=
  { world := updateEntity s.world i deactivateBullet,
    pool := i :: s.pool }

/-- The identifiers currently matched by world.with(Bullet, Transform, Velocity). -/
def bulletQueryIds (w : World) : List Nat :=
  (w.filter (fun e => e.bullet.isSome && e.transform.isSome && e.velocity.isSome)).map (·.id)

/-- The mutation bulletUpdate applies to one queried entity: store the
decremented-lifespan bullet data and recompute the bounding box centred on
the current Transform position (when both Collidable and Transform are
present). -/
def ageBullet (bd2 : BulletData) (e0 : Entity) : Entity :=
  let e1 := { e0 with bullet := some bd2 }
  match e1.collidable, e1.transform with
  | some _, some p =>
    { e1 with collidable := some (AABB.mk (p.sub bulletHalfExtent) (p.add bulletHalfExtent)) }
  | _, _ => e1

/-- The body of BulletSystem.update's loop for one queried entity:
decrement the lifespan by dt, recompute the bounding box around the
current Transform position, and return the bullet to the pool when the
decremented lifespan is ≤ 0. -/
def bulletStep (dt : ℚ) (s : BSState) (i : Nat) : BSState :=
  match lookup s.world i with
  | none => s
  | some e =>
    match e.bullet with
    | none => s
    | some bd =>
      let bd2 : BulletData := { bd with lifespan := bd.lifespan - dt }
      let s2 : BSState := { s with world := updateEntity s.world i (ageBullet bd2) }
      if bd2.lifespan ≤ 0 then returnBullet s2 i else s2

/-- BulletSystem.update: iterate the active-bullets query (snapshot of the
matching ids; miniplex iteration tolerates removal of the current entity). -/
def bulletUpdate (s : BSState) (dt : ℚ) : BSState :=
  (bulletQueryIds s.world).foldl (bulletStep dt) s

/-! ## MovementSystem (MovementSystem.ts)

The camera-following and offset-rotation steps mutate only the camera
collaborator, not the entity world, and are therefore not part of the
world-state model.  The projected, normalized camera basis vectors are
inputs (the camera collaborator provides them), and the square-root based
normalization of the move direction is the function parameter norm. -/

def moveSpeed : ℚ := 5

/-- The isMoving threshold: _moveDirection.lengthSquared() > 0.001. -/
def MOVE_EPS : ℚ := 1/1000

/-- Snapshot of the pressed movement/rotation keys. -/
structure Keys where
  w : Bool
  a : Bool
  s : Bool
  d : Bool
  q : Bool
  e : Bool
deriving DecidableEq, Repr

def noKeys : Keys := ⟨false, false, false, false, false, false⟩

/-- The camera-relative move direction before normalization: sum/difference
of the projected forward/right basis vectors gated by the WASD keys. -/
def moveDirection (keys : Keys) (fwd rgt : Vec3) : Vec3 :=
  let m0 := Vec3.zero
  let m1 := if keys.w then m0.add fwd else m0
  let m2 := if keys.s then m1.sub fwd else m1
  let m3 := if keys.a then m2.sub rgt else m2
  if keys.d then m3.add rgt else m3

/-- The velocity write for one {Player, Transform, Velocity} entity: only
the x and z components of the velocity vector are assigned (y is up and is
left alone). -/
def playerVelWrite (md : Vec3) (e : Entity) : Entity :=
  if e.player && e.transform.isSome then
    match e.velocity with
    | some v => { e with velocity := some { v with x := md.x, z := md.z } }
    | none => e
  else e

/-- The integration step for one {Transform, Velocity} entity:
position += velocity * dt. -/
def integrate (dt : ℚ) (e : Entity) : Entity :=
  match e.transform, e.velocity with
  | some p, some v => { e with transform := some (p.add (v.scale dt)) }
  | _, _ => e

/-- MovementSystem.update on the entity world: (a) compute the move
direction, normalize (via the abstracted norm) and scale by moveSpeed when
its squared length exceeds the threshold; (b) write its x and z components
into the velocity of every {Player, Transform, Velocity} entity; (c)
integrate position += velocity * dt for every {Transform, Velocity}
entity. -/
def movementUpdate (norm : Vec3 → Vec3) (keys : Keys) (fwd rgt : Vec3) (dt : ℚ)
    (w : World) : World :=
  let md0 := moveDirection keys fwd rgt
  let md := if md0.lengthSq > MOVE_EPS then (norm md0).scale moveSpeed else md0
  (w.map (playerVelWrite md)).map (integrate dt)

/-! ## CollisionSystem (the two-argument revision of CollisionSystem.ts) -/

/-- Color4 as passed to spawnParticles. -/
structure Color4 where
  r : ℚ
  g : ℚ
  b : ℚ
  a : ℚ
deriving DecidableEq, Repr

/-- A call of particleSystem.spawnParticles recorded by CollisionSystem's
collision response, with the arguments of the source call site. -/
structure SpawnEvent where
  position : Vec3
  color : Color4
  count : Nat
  lifetime : ℚ
  speedMin : ℚ
  speedMax : ℚ
deriving DecidableEq, Repr

/-- The per-candidate test of CollisionSystem.update's inner loop, with the
source's skip conditions in order: self or firedBy owner; missing
Transform position on either side; missing BoundingInfo on either side;
then the AABB intersection test. -/
def collisionPairOK (b other : Entity) (bd : BulletData) : Bool :=
  if b.id == other.id || bd.firedBy == other.id then false
  else if !(b.transform.isSome && other.transform.isSome) then false
  else
    match b.collidable, other.collidable with
    | some bi, some oi => bi.intersects oi
    | _, _ => false

/-- The first candidate of the collidables snapshot that the given bullet
collides with (the inner loop runs in snapshot order and stops at the
first intersection). -/
def findTarget (w : World) (b : Entity) (bd : BulletData) (collSnap : List Nat) : Option Nat :=
  collSnap.find? (fun oid =>
    match lookup w oid with
    | none => false
    | some other => collisionPairOK b other bd)

/-- The identifiers matched by world.with(Collidable, Transform). -/
def collidableQueryIds (w : World) : List Nat :=
  (w.filter (fun e => e.collidable.isSome && e.transform.isSome)).map (·.id)

/-- The identifiers matched by world.with(Bullet, Collidable, Transform). -/
def collisionBulletIds (w : World) : List Nat :=
  (w.filter (fun e => e.bullet.isSome && e.collidable.isSome && e.transform.isSome)).map (·.id)

/-- The damage application of the collision response: subtract the
bullet's damage from the target's hp when the target carries Health. -/
def applyDamage (dmg : ℚ) (o : Entity) : Entity :=
  match o.health with
  | some h => { o with health := some { h with hp := h.hp - dmg } }
  | none => o

/-- The body of CollisionSystem.update's outer loop for one bullet of the
snapshot: scan the collidables snapshot for the first intersecting
eligible candidate; on a hit, subtract the bullet's damage from the
target's Health (when present), record the particle burst (reddish, 15
particles for a Health carrier; greyish, 10 for a static obstacle; both
with lifetime 0.4 and speeds 1..4), and return the bullet to the pool. -/
def processBullet (collSnap : List Nat) (st : BSState × List SpawnEvent) (bid : Nat) :
    BSState × List SpawnEvent :=
  let s := st.1
  match lookup s.world bid with
  | none => st
  | some b =>
    match b.bullet with
    | none => st
    | some bd =>
      match b.transform with
      | none => st
      | some bpos =>
        match findTarget s.world b bd collSnap with
        | none => st
        | some tid =>
          let organic := (healthOf s.world tid).isSome
          let ev : SpawnEvent :=
            { position := bpos,
              color := if organic then ⟨1, 1/5, 1/10, 1⟩ else ⟨1/2, 1/2, 1/2, 1⟩,
              count := if organic then 15 else 10,
              lifetime := 2/5, speedMin := 1, speedMax := 4 }
          let s1 : BSState := { s with world := updateEntity s.world tid (applyDamage bd.damage) }
          (returnBullet s1 bid, st.2 ++ [ev])

/-- CollisionSystem.update: materialize both query snapshots, then resolve
every bullet against at most one target (first match wins).  The particle
bursts are returned as the list of recorded spawnParticles calls. -/
def collisionUpdate (s : BSState) : BSState × List SpawnEvent :=
  let collSnap := collidableQueryIds s.world
  let bSnap := collisionBulletIds s.world
  bSnap.foldl (processBullet collSnap) (s, [])

/-! ## ParticleSystem (ParticleSystem.ts)

The SPS particle pool is a list of slots; the internal tracking map
(particles: Map keyed by the SPS slot index) is folded into each slot as
its optional data field — an index is tracked exactly when its slot's
data is some.  Of the visual state we keep position, color alpha and the
isVisible flag.  Math.random draws are supplied by an explicit stream:
the unit direction obtained by inverse-transform sampling involves
sin/cos/acos, which have no rational closed form, so the stream provides
the sampled unit direction directly together with the uniform [0,1)
draws for the speed and the lifetime jitter. -/

/-- The per-particle tracking data of the source's ParticleData. -/
structure ParticleData where
  startTime : ℚ
  lifetime : ℚ
  initialVelocity : Vec3
  initialPosition : Vec3
deriving DecidableEq, Repr

/-- One SPS pool slot together with its tracking-map entry. -/
structure Slot where
  isVisible : Bool
  position : Vec3
  alpha : ℚ
  data : Option ParticleData
deriving DecidableEq, Repr

/-- One batch of Math.random draws for spawning a single particle. -/
structure Rnd where
  dir : Vec3
  uSpeed : ℚ
  uLife : ℚ

/-- ParticleSystem state: the slot pool, the simulation clock, and the
random stream with its next index. -/
structure PState where
  slots : List Slot
  currentTime : ℚ
  rnd : Nat → Rnd
  k : Nat

/-- ParticleSystem constructor: capacity invisible, untracked slots and a
simulation clock at 0. -/
def pInit (n : Nat) (rnd : Nat → Rnd) : PState :=
  { slots := List.replicate n ⟨false, Vec3.zero, 0, none⟩,
    currentTime := 0, rnd := rnd, k := 0 }

/-- The direct initialization of one pool slot in spawnParticles: speed
uniform in [speedMin, speedMax], lifetime jittered by
lifetime * (0.8 + 0.4*u), start time = current clock. -/
def mkParticle (now : ℚ) (position : Vec3) (lifetime speedMin speedMax : ℚ) (r : Rnd) :
    ParticleData :=
  { startTime := now,
    lifetime := lifetime * (4/5 + r.uLife * (2/5)),
    initialVelocity := r.dir.scale (speedMin + r.uSpeed * (speedMax - speedMin)),
    initialPosition := position }

/-- The scan of spawnParticles over the SPS pool: activate up to remaining
slots that are currently invisible and untracked, consuming one random
batch per activation; other slots are left untouched. -/
def spawnScan (now : ℚ) (position : Vec3) (colorA lifetime speedMin speedMax : ℚ)
    (rnd : Nat → Rnd) : List Slot → Nat → Nat → List Slot × Nat
  | [], _, k => ([], k)
  | sl :: rest, remaining, k =>
    if remaining = 0 then (sl :: rest, k)
    else if !sl.isVisible && sl.data.isNone then
      let d := mkParticle now position lifetime speedMin speedMax (rnd k)
      let r2 := spawnScan now position colorA lifetime speedMin speedMax rnd rest
        (remaining - 1) (k + 1)
      (Slot.mk true position colorA (some d) :: r2.1, r2.2)
    else
      let r2 := spawnScan now position colorA lifetime speedMin speedMax rnd rest remaining k
      (sl :: r2.1, r2.2)

/-- ParticleSystem.spawnParticles: scans the pool for free slots and
directly initializes up to count of them (a shortfall is only logged). -/
def spawnParticles (ps : PState) (position : Vec3) (color : Color4) (count : Nat)
    (lifetime speedMin speedMax : ℚ) : PState :=
  let r := spawnScan ps.currentTime position color.a lifetime speedMin speedMax
    ps.rnd ps.slots count ps.k
  { ps with slots := r.1, k := r.2 }

/-- The sps.updateParticle callback: untracked particles are hidden;
tracked ones are recycled once age ≥ lifetime, and otherwise placed at
initialPosition + initialVelocity * age with alpha 1 - age/lifetime and
forced visible. -/
def updateParticle (now : ℚ) (sl : Slot) : Slot :=
  match sl.data with
  | none => { sl with isVisible := false }
  | some d =>
    let age := now - d.startTime
    if d.lifetime ≤ age then { sl with isVisible := false, data := none }
    else
      { isVisible := true,
        position := d.initialPosition.add (d.initialVelocity.scale age),
        alpha := 1 - age / d.lifetime,
        data := some d }

/-- ParticleSystem.update: advance the clock by dt, then run the update
callback on every pool slot (sps.setParticles). -/
def pUpdate (ps : PState) (dt : ℚ) : PState :=
  let now := ps.currentTime + dt
  { ps with currentTime := now, slots := ps.slots.map (updateParticle now) }

/-- Count of currently tracked (active) particle slots. -/
def pActiveCount (slots : List Slot) : Nat :=
  slots.countP (fun sl => sl.data.isSome)

/-! ## The per-frame pipeline -/

/-- The world-mutating phases that precede CollisionSystem.update in the
render loop: MovementSystem.update then BulletSystem.update (render
mirroring reads but does not write the modelled state). -/
def preCollision (norm : Vec3 → Vec3) (keys : Keys) (fwd rgt : Vec3) (dt : ℚ)
    (s : BSState) : BSState :=
  bulletUpdate { s with world := movementUpdate norm keys fwd rgt dt s.world } dt

/-- One tick of the render loop over the ECS state, in the source order
movementSystem.update, bulletSystem.update, renderSpriteSystem.update
(no ECS-state effect), collisionSystem.update. -/
def tick (norm : Vec3 → Vec3) (keys : Keys) (fwd rgt : Vec3) (dt : ℚ)
    (s : BSState) : BSState :=
  (collisionUpdate (preCollision norm keys fwd rgt dt s)).1

/-- The whole-game state for the full pipeline. -/
structure GState where
  bs : BSState
  ps : PState

/-- Replay one recorded spawnParticles call against the particle state. -/
def applySpawnEvent (ps : PState) (ev : SpawnEvent) : PState :=
  spawnParticles ps ev.position ev.color ev.count ev.lifetime ev.speedMin ev.speedMax

/-- Modelled from the spec: the current revision of main.ts — the one that
constructs the two-argument CollisionSystem(bulletSystem, particleSystem)
of CollisionSystem.ts — is not among the sources; the retrieved main
(part_003) is a stale revision that wires the one-argument CollisionSystem
and never advances the particle system.  Following the spec's pipeline
(Input → Movement → Bullet aging → Render mirroring → Collision
detection/response → Particle advance), one frame runs Movement, Bullet,
Render (no modelled-state effect), Collision (whose spawnParticles calls
mutate the particle pool as they are issued), and finally one
ParticleSystem.update(dt). -/
def specTick (norm : Vec3 → Vec3) (keys : Keys) (fwd rgt : Vec3) (dt : ℚ)
    (g : GState) : GState :=
  let r := collisionUpdate (preCollision norm keys fwd rgt dt g.bs)
  let ps1 := r.2.foldl applySpawnEvent g.ps
  { bs := r.1, ps := pUpdate ps1 dt }

/-! ## The fireBullet / returnBullet call-sequence model (claim C1) -/

/-- One external call into the BulletSystem pool interface. -/
inductive Call where
  | fire (firedBy : Nat) (position direction : Vec3)
  | ret (i : Nat)

/-- Whether the entity currently holds the Bullet component (is an active
bullet rather than a pooled one). -/
def isActive (w : World) (i : Nat) : Bool :=
  (bulletOf w i).isSome

def step (s : BSState) : Call → BSState
  | .fire fb p d => fireBullet s fb p d
  | .ret i => returnBullet s i

def run (s : BSState) : List Call → BSState
  | [] => s
  | c :: cs => run (step s c) cs

/-- A call sequence is disciplined when every returnBullet call targets a
currently active bullet — the calling discipline the source's two call
sites (lifespan expiry and collision response) follow. -/
def disciplined (s : BSState) : List Call → Bool
  | [] => true
  | c :: cs =>
    (match c with
     | .ret i => isActive s.world i
     | .fire _ _ _ => true) && disciplined (step s c) cs

/-- Number of active bullets in the world. -/
def activeCount (w : World) : Nat :=
  w.countP (fun e => e.bullet.isSome)

/-! ## Basic lemmas about the registry model -/

theorem lookup_id {w : World} {i : Nat} {e : Entity} (h : lookup w i = some e) :
    e.id = i := by
  have := List.find?_some h
  simpa using this

theorem mem_of_lookup {w : World} {i : Nat} {e : Entity} (h : lookup w i = some e) :
    e ∈ w :=
  List.mem_of_find?_eq_some h

theorem lookup_map {w : World} {f : Entity → Entity} (hf : ∀ e, (f e).id = e.id) (i : Nat) :
    lookup (w.map f) i = (lookup w i).map f := by
  induction w with
  | nil => rfl
  | cons a t ih =>
    by_cases ha : a.id = i
    · simp [lookup, List.find?_cons, hf, ha] at ih ⊢
    · simp only [lookup, List.map_cons, List.find?_cons] at ih ⊢
      have h1 : ((f a).id == i) = false := by simp [hf, ha]
      have h2 : (a.id == i) = false := by simp [ha]
      rw [h1, h2]
      exact ih

theorem lookup_updateEntity {w : World} {f : Entity → Entity} (hf : ∀ e, (f e).id = e.id)
    (i j : Nat) :
    lookup (updateEntity w i f) j =
      (lookup w j).map (fun e => if e.id = i then f e else e) := by
  unfold updateEntity
  exact lookup_map (fun e => by by_cases h : e.id = i <;> simp [h, hf]) j

theorem lookup_updateEntity_self {w : World} {f : Entity → Entity}
    (hf : ∀ e, (f e).id = e.id) (i : Nat) :
    lookup (updateEntity w i f) i = (lookup w i).map f := by
  rw [lookup_updateEntity hf]
  cases h : lookup w i with
  | none => rfl
  | some e => simp [lookup_id h]

theorem lookup_updateEntity_ne {w : World} {f : Entity → Entity}
    (hf : ∀ e, (f e).id = e.id) {i j : Nat} (hij : j ≠ i) :
    lookup (updateEntity w i f) j = lookup w j := by
  rw [lookup_updateEntity hf]
  cases h : lookup w j with
  | none => rfl
  | some e => simp [lookup_id h, hij]

/-- Decompose a world around a successful lookup: everything before the
found entity has a different id. -/
theorem lookup_decomp {w : World} {i : Nat} {e : Entity} (h : lookup w i = some e) :
    ∃ l1 l2, w = l1 ++ e :: l2 ∧ ∀ x ∈ l1, x.id ≠ i := by
  induction w with
  | nil => simp [lookup] at h
  | cons a t ih =>
    by_cases ha : a.id = i
    · have hae : a = e := by
        have hl : lookup (a :: t) i = some a := by simp [lookup, List.find?_cons, ha]
        rw [hl] at h
        exact Option.some_inj.mp h
      subst hae
      exact ⟨[], t, rfl, by simp⟩
    · have ht : lookup t i = some e := by
        have h2 : (a.id == i) = false := by simp [ha]
        simpa [lookup, List.find?_cons, h2] using h
      obtain ⟨l1, l2, hw, h1⟩ := ih ht
      refine ⟨a :: l1, l2, by simp [hw], ?_⟩
      intro x hx
      rcases List.mem_cons.mp hx with rfl | hx
      · exact ha
      · exact h1 x hx

theorem updateEntity_decomp {l1 l2 : List Entity} {e : Entity} {i : Nat}
    (f : Entity → Entity) (he : e.id = i)
    (h1 : ∀ x ∈ l1, x.id ≠ i) (h2 : ∀ x ∈ l2, x.id ≠ i) :
    updateEntity (l1 ++ e :: l2) i f = l1 ++ f e :: l2 := by
  unfold updateEntity
  rw [List.map_append, List.map_cons, if_pos he]
  congr 1
  · have hx1 : ∀ x ∈ l1, (if x.id = i then f x else x) = x := by
      intro x hx; rw [if_neg (h1 x hx)]
    simp only [List.map_congr_left hx1, List.map_id']
  · congr 1
    have hx2 : ∀ x ∈ l2, (if x.id = i then f x else x) = x := by
      intro x hx; rw [if_neg (h2 x hx)]
    simp only [List.map_congr_left hx2, List.map_id']

/-- In a world with no duplicate ids, everything to the right of a
decomposition member also has a different id. -/
theorem decomp_right_ne {l1 l2 : List Entity} {e : Entity} {i : Nat}
    (hn : (((l1 ++ e :: l2).map (·.id))).Nodup) (he : e.id = i) :
    ∀ x ∈ l2, x.id ≠ i := by
  intro x hx
  rw [List.map_append, List.nodup_append] at hn
  have hcons : ((e :: l2).map (·.id)).Nodup := hn.2.1
  rw [List.map_cons, List.nodup_cons] at hcons
  intro hxi
  apply hcons.1
  have hmem : x.id ∈ l2.map (·.id) := List.mem_map_of_mem (·.id) hx
  rw [hxi, ← he] at hmem
  exact hmem

theorem updateEntity_map_id {w : World} {f : Entity → Entity}
    (hf : ∀ e, (f e).id = e.id) (i : Nat) :
    (updateEntity w i f).map (·.id) = w.map (·.id) := by
  unfold updateEntity
  rw [List.map_map]
  apply List.map_congr_left
  intro e _
  by_cases h : e.id = i <;> simp [h, hf]

/-! ## Lemmas about the entity mutators -/

@[simp] theorem addBullet_id (d : BulletData) (e : Entity) : (addBullet d e).id = e.id := by
  unfold addBullet; cases e.bullet <;> rfl

@[simp] theorem addTransform_id (p : Vec3) (e : Entity) : (addTransform p e).id = e.id := by
  unfold addTransform; cases e.transform <;> rfl

@[simp] theorem addVelocity_id (v : Vec3) (e : Entity) : (addVelocity v e).id = e.id := by
  unfold addVelocity; cases e.velocity <;> rfl

@[simp] theorem addCollidable_id (b : AABB) (e : Entity) : (addCollidable b e).id = e.id := by
  unfold addCollidable; cases e.collidable <;> rfl

@[simp] theorem activateBullet_id (fb : Nat) (sp v : Vec3) (e : Entity) :
    (activateBullet fb sp v e).id = e.id := by
  unfold activateBullet; simp

@[simp] theorem deactivateBullet_id (e : Entity) : (deactivateBullet e).id = e.id := rfl

@[simp] theorem ageBullet_id (bd2 : BulletData) (e : Entity) :
    (ageBullet bd2 e).id = e.id := by
  unfold ageBullet
  cases e.collidable <;> cases e.transform <;> rfl

@[simp] theorem applyDamage_id (dmg : ℚ) (e : Entity) : (applyDamage dmg e).id = e.id := by
  unfold applyDamage; cases e.health <;> rfl

@[simp] theorem addTransform_bullet (p : Vec3) (e : Entity) :
    (addTransform p e).bullet = e.bullet := by
  unfold addTransform; cases e.transform <;> rfl

@[simp] theorem addVelocity_bullet (v : Vec3) (e : Entity) :
    (addVelocity v e).bullet = e.bullet := by
  unfold addVelocity; cases e.velocity <;> rfl

@[simp] theorem addCollidable_bullet (b : AABB) (e : Entity) :
    (addCollidable b e).bullet = e.bullet := by
  unfold addCollidable; cases e.collidable <;> rfl

theorem addBullet_of_none {e : Entity} (h : e.bullet = none) (d : BulletData) :
    addBullet d e = { e with bullet := some d } := by
  unfold addBullet; rw [h]

theorem addTransform_of_none {e : Entity} (h : e.transform = none) (p : Vec3) :
    addTransform p e = { e with transform := some p } := by
  unfold addTransform; rw [h]

theorem addVelocity_of_none {e : Entity} (h : e.velocity = none) (v : Vec3) :
    addVelocity v e = { e with velocity := some v } := by
  unfold addVelocity; rw [h]

theorem addCollidable_of_none {e : Entity} (h : e.collidable = none) (b : AABB) :
    addCollidable b e = { e with collidable := some b } := by
  unfold addCollidable; rw [h]

theorem activateBullet_bullet {e : Entity} (h : e.bullet = none) (fb : Nat) (sp v : Vec3) :
    (activateBullet fb sp v e).bullet = some ⟨BULLET_DAMAGE, BULLET_LIFESPAN, fb⟩ := by
  unfold activateBullet
  simp [addBullet_of_none h]

/-- Activation of a fully pooled (component-free) entity attaches all four
gameplay components and sets the sprite visible. -/
theorem activateBullet_of_blank {e : Entity} (hb : e.bullet = none)
    (ht : e.transform = none) (hv : e.velocity = none) (hc : e.collidable = none)
    (fb : Nat) (sp v : Vec3) :
    activateBullet fb sp v e =
      { e with
        bullet := some ⟨BULLET_DAMAGE, BULLET_LIFESPAN, fb⟩,
        transform := some sp,
        velocity := some v,
        collidable := some ⟨sp.sub bulletHalfExtent, sp.add bulletHalfExtent⟩,
        spriteVisible := true } := by
  unfold activateBullet
  rw [addBullet_of_none hb]
  dsimp only
  rw [addTransform_of_none
    (show ({ e with bullet := some ⟨BULLET_DAMAGE, BULLET_LIFESPAN, fb⟩ } : Entity).transform
        = none from ht)]
  dsimp only
  rw [addVelocity_of_none
    (show ({ e with
              bullet := some ⟨BULLET_DAMAGE, BULLET_LIFESPAN, fb⟩,
              transform := some sp } : Entity).velocity = none from hv)]
  dsimp only
  rw [addCollidable_of_none
    (show ({ e with
              bullet := some ⟨BULLET_DAMAGE, BULLET_LIFESPAN, fb⟩,
              transform := some sp,
              velocity := some v } : Entity).collidable = none from hc)]

@[simp] theorem deactivateBullet_bullet (e : Entity) : (deactivateBullet e).bullet = none := rfl

@[simp] theorem deactivateBullet_health (e : Entity) :
    (deactivateBullet e).health = e.health := rfl

@[simp] theorem ageBullet_bullet (bd2 : BulletData) (e : Entity) :
    (ageBullet bd2 e).bullet = some bd2 := by
  unfold ageBullet
  cases e.collidable <;> cases e.transform <;> rfl

@[simp] theorem ageBullet_health (bd2 : BulletData) (e : Entity) :
    (ageBullet bd2 e).health = e.health := by
  unfold ageBullet
  cases e.collidable <;> cases e.transform <;> rfl

@[simp] theorem ageBullet_transform (bd2 : BulletData) (e : Entity) :
    (ageBullet bd2 e).transform = e.transform := by
  unfold ageBullet
  cases e.collidable <;> cases e.transform <;> rfl

@[simp] theorem ageBullet_velocity (bd2 : BulletData) (e : Entity) :
    (ageBullet bd2 e).velocity = e.velocity := by
  unfold ageBullet
  cases e.collidable <;> cases e.transform <;> rfl

@[simp] theorem applyDamage_health_some {e : Entity} {h : HealthData}
    (hh : e.health = some h) (dmg : ℚ) :
    (applyDamage dmg e).health = some ⟨h.hp - dmg, h.maxHp⟩ := by
  unfold applyDamage
  rw [hh]

@[simp] theorem applyDamage_bullet (dmg : ℚ) (e : Entity) :
    (applyDamage dmg e).bullet = e.bullet := by
  unfold applyDamage; cases e.health <;> rfl

/-! ## Snapshot and fold lemmas -/

theorem mem_nodup_decomp {l : List Nat} {i : Nat} (hm : i ∈ l) (hn : l.Nodup) :
    ∃ l1 l2, l = l1 ++ i :: l2 ∧ i ∉ l1 ∧ i ∉ l2 := by
  obtain ⟨l1, l2, rfl⟩ := List.append_of_mem hm
  rw [List.nodup_append] at hn
  refine ⟨l1, l2, rfl, ?_, ?_⟩
  · intro h1
    exact hn.2.2 h1 (List.mem_cons_self i l2)
  · intro h2
    have hc := hn.2.1
    rw [List.nodup_cons] at hc
    exact hc.1 h2

theorem mem_bulletQueryIds {w : World} {i : Nat} {e : Entity} (hl : lookup w i = some e)
    (hb : e.bullet.isSome) (ht : e.transform.isSome) (hv : e.velocity.isSome) :
    i ∈ bulletQueryIds w := by
  unfold bulletQueryIds
  have hmem : e ∈ w.filter (fun e => e.bullet.isSome && e.transform.isSome && e.velocity.isSome) :=
    List.mem_filter.mpr ⟨mem_of_lookup hl, by rw [hb, ht, hv]; rfl⟩
  rw [← lookup_id hl]
  exact List.mem_map_of_mem (·.id) hmem

theorem bulletQueryIds_nodup {w : World} (h : (w.map (·.id)).Nodup) :
    (bulletQueryIds w).Nodup := by
  unfold bulletQueryIds
  exact h.sublist ((List.filter_sublist w).map (·.id))

theorem foldl_preserve {σ : BSState → Nat → BSState} {i : Nat}
    (H : ∀ s j, j ≠ i → lookup (σ s j).world i = lookup s.world i ∧
          (σ s j).pool.count i = s.pool.count i)
    {l : List Nat} (hi : i ∉ l) (s : BSState) :
    lookup (l.foldl σ s).world i = lookup s.world i ∧
    (l.foldl σ s).pool.count i = s.pool.count i := by
  induction l generalizing s with
  | nil => exact ⟨rfl, rfl⟩
  | cons j t ih =>
    have hji : j ≠ i := fun h => hi (h ▸ List.mem_cons_self j t)
    have hit : i ∉ t := fun h => hi (List.mem_cons_of_mem j h)
    rw [List.foldl_cons]
    obtain ⟨h1, h2⟩ := ih hit (σ s j)
    obtain ⟨h3, h4⟩ := H s j hji
    exact ⟨h1.trans h3, h2.trans h4⟩

/-- A bulletUpdate step for another entity touches neither the entity i
nor i's multiplicity in the pool. -/
theorem bulletStep_other {dt : ℚ} {s : BSState} {i j : Nat} (hij : j ≠ i) :
    lookup (bulletStep dt s j).world i = lookup s.world i ∧
    (bulletStep dt s j).pool.count i = s.pool.count i := by
  unfold bulletStep
  split
  · exact ⟨rfl, rfl⟩
  · rename_i e hl
    split
    · exact ⟨rfl, rfl⟩
    · rename_i bd hb
      dsimp only
      split
      · unfold returnBullet
        constructor
        · show lookup (updateEntity (updateEntity s.world j _) j deactivateBullet) i = _
          rw [lookup_updateEntity_ne (fun e => deactivateBullet_id e) (Ne.symm hij),
            lookup_updateEntity_ne
              (fun e => ageBullet_id { bd with lifespan := bd.lifespan - dt } e)
              (Ne.symm hij)]
        · show (j :: s.pool).count i = s.pool.count i
          rw [List.count_cons]
          simp [hij]
      · constructor
        · exact lookup_updateEntity_ne
            (fun e => ageBullet_id { bd with lifespan := bd.lifespan - dt } e) (Ne.symm hij)
        · rfl

/-- The bulletUpdate step for the entity itself: the lifespan is
decremented by dt and the bounding box refreshed; the bullet is returned
to the pool exactly when the decremented lifespan is ≤ 0. -/
theorem bulletStep_self {dt : ℚ} {s : BSState} {i : Nat} {e : Entity} {bd : BulletData}
    (hl : lookup s.world i = some e) (hb : e.bullet = some bd) :
    (¬ bd.lifespan - dt ≤ 0 →
      lookup (bulletStep dt s i).world i =
        some (ageBullet { bd with lifespan := bd.lifespan - dt } e) ∧
      (bulletStep dt s i).pool.count i = s.pool.count i) ∧
    (bd.lifespan - dt ≤ 0 →
      lookup (bulletStep dt s i).world i =
        some (deactivateBullet (ageBullet { bd with lifespan := bd.lifespan - dt } e)) ∧
      (bulletStep dt s i).pool.count i = s.pool.count i + 1) := by
  unfold bulletStep
  split
  · rename_i hl0
    rw [hl0] at hl
    exact absurd hl (by simp)
  · rename_i e0 hl0
    rw [hl0] at hl
    have he : e = e0 := (Option.some_inj.mp hl).symm
    subst he
    split
    · rename_i hb0
      rw [hb0] at hb
      exact absurd hb (by simp)
    · rename_i bd0 hb0
      rw [hb0] at hb
      have hbd : bd = bd0 := (Option.some_inj.mp hb).symm
      subst hbd
      dsimp only
      constructor
      · intro hpos
        rw [if_neg hpos]
        constructor
        · rw [lookup_updateEntity_self
            (fun e => ageBullet_id { bd with lifespan := bd.lifespan - dt } e), hl0]
          rfl
        · rfl
      · intro hle
        rw [if_pos hle]
        unfold returnBullet
        constructor
        · show lookup (updateEntity (updateEntity s.world i _) i deactivateBullet) i = _
          rw [lookup_updateEntity_self (fun e => deactivateBullet_id e),
            lookup_updateEntity_self
              (fun e => ageBullet_id { bd with lifespan := bd.lifespan - dt } e), hl0]
          rfl
        · show (i :: _).count i = _
          rw [List.count_cons]
          simp

/-- Effect of one BulletSystem.update call on a given active bullet, in a
world without duplicate ids: characterizes both the surviving and the
expiring branch. -/
theorem bulletUpdate_effect {s : BSState} {dt : ℚ} {i : Nat} {e : Entity} {bd : BulletData}
    (hnd : (s.world.map (·.id)).Nodup)
    (hl : lookup s.world i = some e)
    (hb : e.bullet = some bd) (ht : e.transform.isSome) (hv : e.velocity.isSome) :
    (¬ bd.lifespan - dt ≤ 0 →
      lookup (bulletUpdate s dt).world i =
        some (ageBullet { bd with lifespan := bd.lifespan - dt } e) ∧
      (bulletUpdate s dt).pool.count i = s.pool.count i) ∧
    (bd.lifespan - dt ≤ 0 →
      lookup (bulletUpdate s dt).world i =
        some (deactivateBullet (ageBullet { bd with lifespan := bd.lifespan - dt } e)) ∧
      (bulletUpdate s dt).pool.count i = s.pool.count i + 1) := by
  have hmem : i ∈ bulletQueryIds s.world :=
    mem_bulletQueryIds hl (by rw [hb]; rfl) ht hv
  obtain ⟨l1, l2, hsnap, hi1, hi2⟩ := mem_nodup_decomp hmem (bulletQueryIds_nodup hnd)
  have hother : ∀ s j, j ≠ i → lookup (bulletStep dt s j).world i = lookup s.world i ∧
      (bulletStep dt s j).pool.count i = s.pool.count i :=
    fun s j hj => bulletStep_other hj
  unfold bulletUpdate
  rw [hsnap, List.foldl_append, List.foldl_cons]
  obtain ⟨hw1, hp1⟩ := foldl_preserve hother hi1 s
  set s1 := l1.foldl (bulletStep dt) s with hs1
  have hl1 : lookup s1.world i = some e := hw1.trans hl
  obtain ⟨hsurv, hexp⟩ := @bulletStep_self dt s1 i e bd hl1 hb
  constructor
  · intro hpos
    obtain ⟨ha, hc⟩ := hsurv hpos
    obtain ⟨hw2, hp2⟩ := foldl_preserve hother hi2 (bulletStep dt s1 i)
    exact ⟨hw2.trans ha, (hp2.trans hc).trans hp1⟩
  · intro hle
    obtain ⟨ha, hc⟩ := hexp hle
    obtain ⟨hw2, hp2⟩ := foldl_preserve hother hi2 (bulletStep dt s1 i)
    refine ⟨hw2.trans ha, ?_⟩
    rw [hp2, hc, hp1]

/-! ## Claim C3 -/

/-- Claim C3 (confirmed): for every active bullet (entity in the
{Bullet, Transform, Velocity} query) and every BulletSystem.update(dt)
call with dt > 0 on a world without duplicate ids, the bullet's lifespan
strictly decreases by exactly dt; while the decremented lifespan is still
positive the bullet stays active (its Bullet component present, lifespan
old − dt < old, and its pool multiplicity unchanged), and as soon as the
decremented lifespan is ≤ 0 the bullet is deactivated — Bullet component
removed and identifier pushed onto the pool — exactly once. -/
theorem C3_lifespan_monotonicity (s : BSState) (dt : ℚ) (i : Nat) (e : Entity)
    (bd : BulletData)
    (hnd : (s.world.map (·.id)).Nodup) (hdt : 0 < dt)
    (hl : lookup s.world i = some e) (hb : e.bullet = some bd)
    (ht : e.transform.isSome) (hv : e.velocity.isSome) :
    (0 < bd.lifespan - dt →
      bulletOf (bulletUpdate s dt).world i = some { bd with lifespan := bd.lifespan - dt } ∧
      bd.lifespan - dt < bd.lifespan ∧
      (bulletUpdate s dt).pool.count i = s.pool.count i) ∧
    (bd.lifespan - dt ≤ 0 →
      bulletOf (bulletUpdate s dt).world i = none ∧
      (bulletUpdate s dt).pool.count i = s.pool.count i + 1) := by
  obtain ⟨hsurv, hexp⟩ := @bulletUpdate_effect s dt i e bd hnd hl hb ht hv
  constructor
  · intro hpos
    obtain ⟨ha, hc⟩ := hsurv (by linarith)
    refine ⟨?_, by linarith, hc⟩
    unfold bulletOf
    rw [ha]
    simp
  · intro hle
    obtain ⟨ha, hc⟩ := hexp hle
    refine ⟨?_, hc⟩
    unfold bulletOf
    rw [ha]
    rfl

/-- Witness for C3 at a concrete input: a freshly fired bullet (lifespan
2) aged by dt = 1 survives with lifespan 1 and unchanged pool
multiplicity. -/
theorem C3_lifespan_monotonicity_witness :
    bulletOf (bulletUpdate (fireBullet (initBulletSystem 1) 0 ⟨0, 0, 0⟩ ⟨1, 0, 0⟩) 1).world 0 =
      some ⟨10, 1, 0⟩ ∧
    (bulletUpdate (fireBullet (initBulletSystem 1) 0 ⟨0, 0, 0⟩ ⟨1, 0, 0⟩) 1).pool.count 0 =
      (fireBullet (initBulletSystem 1) 0 ⟨0, 0, 0⟩ ⟨1, 0, 0⟩).pool.count 0 := by
  have h := C3_lifespan_monotonicity (fireBullet (initBulletSystem 1) 0 ⟨0, 0, 0⟩ ⟨1, 0, 0⟩)
    1 0
    ⟨0, some ⟨1/2, 4, 0⟩, some ⟨25, 0, 0⟩, none, some ⟨10, 2, 0⟩,
      some ⟨⟨0, 7/2, -(1/2)⟩, ⟨1, 9/2, 1/2⟩⟩, true, false⟩
    ⟨10, 2, 0⟩
    (by decide) (by norm_num)
    (by
      simp [fireBullet, initBulletSystem, blankEntity, activateBullet, addBullet,
        addTransform, addVelocity, addCollidable, updateEntity, lookup, Vec3.add,
        Vec3.sub, Vec3.scale, bulletHalfExtent, BULLET_SPEED, BULLET_LIFESPAN,
        BULLET_DAMAGE, List.range_succ]
      norm_num)
    rfl rfl rfl
  obtain ⟨hb2, _, hc2⟩ := h.1 (by norm_num)
  have h21 : (2 : ℚ) - 1 = 1 := by norm_num
  rw [h21] at hb2
  exact ⟨hb2, hc2⟩

/-! ## Claim C5 -/

/-- Claim C5 counterexample: firing with the non-unit direction (2,0,0)
gives the bullet velocity (2,0,0)*BULLET_SPEED = (50,0,0), whose squared
speed 2500 is not BULLET_SPEED² = 625 — the source scales the raw
direction, it does not normalize it, so the claimed speed guarantee fails
for non-unit input directions (normalize((2,0,0)) * BULLET_SPEED would be
(25,0,0)). -/
theorem C5_counterexample :
    velocityOf (fireBullet (initBulletSystem 1) 0 ⟨0, 0, 0⟩ ⟨2, 0, 0⟩).world 0 =
      some ⟨50, 0, 0⟩ ∧
    Vec3.lengthSq ⟨50, 0, 0⟩ ≠ BULLET_SPEED * BULLET_SPEED := by
  constructor
  · simp [velocityOf, fireBullet, initBulletSystem, blankEntity, activateBullet,
      addBullet, addTransform, addVelocity, addCollidable, updateEntity, lookup,
      Vec3.add, Vec3.sub, Vec3.scale, bulletHalfExtent, BULLET_SPEED,
      BULLET_LIFESPAN, BULLET_DAMAGE, List.range_succ]
    norm_num
  · norm_num [Vec3.lengthSq, BULLET_SPEED]

/-- Claim C5 (amended): when the pool is non-empty and the popped entity is
in the pooled (component-free) state, fireBullet attaches Velocity =
direction * BULLET_SPEED (so the speed equals BULLET_SPEED only for unit
directions), a Transform at position + direction*0.5 whose y coordinate is
then forced to the constant 4.0, a Bullet component with the fixed damage
and lifespan and the given firedBy, a Collidable box of the spawn position
± the half extent (0.5,0.5,0.5), and makes the sprite visible. -/
theorem C5_fireBullet_postcondition (s : BSState) (fb : Nat) (p d : Vec3)
    (t : Nat) (rest : List Nat) (e : Entity)
    (hpool : s.pool = t :: rest) (he : lookup s.world t = some e)
    (hb : e.bullet = none) (ht : e.transform = none) (hv : e.velocity = none)
    (hc : e.collidable = none) :
    (fireBullet s fb p d).pool = rest ∧
    lookup (fireBullet s fb p d).world t = some
      { e with
        bullet := some ⟨BULLET_DAMAGE, BULLET_LIFESPAN, fb⟩,
        transform := some ⟨p.x + d.x * (1/2), 4, p.z + d.z * (1/2)⟩,
        velocity := some (d.scale BULLET_SPEED),
        collidable := some
          ⟨Vec3.sub ⟨p.x + d.x * (1/2), 4, p.z + d.z * (1/2)⟩ bulletHalfExtent,
           Vec3.add ⟨p.x + d.x * (1/2), 4, p.z + d.z * (1/2)⟩ bulletHalfExtent⟩,
        spriteVisible := true } := by
  unfold fireBullet
  rw [hpool]
  constructor
  · rfl
  · show lookup (updateEntity s.world t _) t = _
    rw [lookup_updateEntity_self (fun e => activateBullet_id _ _ _ e), he,
      Option.map_some']
    rw [activateBullet_of_blank hb ht hv hc]
    simp [Vec3.add, Vec3.scale]

/-- Witness for C5 at a concrete input: firing the single pooled bullet
with direction (1,0,0) from the origin. -/
theorem C5_fireBullet_postcondition_witness :
    (fireBullet (initBulletSystem 1) 0 ⟨0, 0, 0⟩ ⟨1, 0, 0⟩).pool = [] ∧
    lookup (fireBullet (initBulletSystem 1) 0 ⟨0, 0, 0⟩ ⟨1, 0, 0⟩).world 0 = some
      { blankEntity 0 with
        bullet := some ⟨BULLET_DAMAGE, BULLET_LIFESPAN, 0⟩,
        transform := some ⟨0 + 1 * (1/2), 4, 0 + 0 * (1/2)⟩,
        velocity := some (Vec3.scale ⟨1, 0, 0⟩ BULLET_SPEED),
        collidable := some
          ⟨Vec3.sub ⟨0 + 1 * (1/2), 4, 0 + 0 * (1/2)⟩ bulletHalfExtent,
           Vec3.add ⟨0 + 1 * (1/2), 4, 0 + 0 * (1/2)⟩ bulletHalfExtent⟩,
        spriteVisible := true } :=
  C5_fireBullet_postcondition (initBulletSystem 1) 0 ⟨0, 0, 0⟩ ⟨1, 0, 0⟩ 0 []
    (blankEntity 0) rfl rfl rfl rfl rfl rfl

/-! ## Claim C10 -/

@[simp] theorem playerVelWrite_id (md : Vec3) (e : Entity) :
    (playerVelWrite md e).id = e.id := by
  unfold playerVelWrite
  by_cases h : e.player && e.transform.isSome
  · rw [if_pos h]; cases e.velocity <;> rfl
  · rw [if_neg h]

@[simp] theorem integrate_id (dt : ℚ) (e : Entity) : (integrate dt e).id = e.id := by
  unfold integrate
  cases e.transform <;> cases e.velocity <;> rfl

@[simp] theorem integrate_velocity (dt : ℚ) (e : Entity) :
    (integrate dt e).velocity = e.velocity := by
  obtain ⟨i, t, v, h, b, c, sv, pl⟩ := e
  unfold integrate
  cases t <;> cases v <;> rfl

/-- The velocity write touches only the x and z components. -/
theorem playerVelWrite_velocity_y {e : Entity} {v : Vec3} (hv : e.velocity = some v)
    (md : Vec3) :
    ∃ v2 : Vec3, (playerVelWrite md e).velocity = some v2 ∧ v2.y = v.y := by
  unfold playerVelWrite
  by_cases h : e.player && e.transform.isSome
  · rw [if_pos h, hv]
    exact ⟨_, rfl, rfl⟩
  · rw [if_neg h]
    exact ⟨v, hv, rfl⟩

/-- Claim C10 (confirmed): MovementSystem.update writes only the x and z
components of a player's velocity; the y component of every entity's
Velocity — in particular every Player-tagged one — is unchanged by the
whole update, whatever its prior value. -/
theorem C10_velocity_y_frame (norm : Vec3 → Vec3) (keys : Keys) (fwd rgt : Vec3)
    (dt : ℚ) (w : World) (i : Nat) (e : Entity) (v : Vec3)
    (he : lookup w i = some e) (hv : e.velocity = some v) :
    ∃ v2 : Vec3, velocityOf (movementUpdate norm keys fwd rgt dt w) i = some v2 ∧
      v2.y = v.y := by
  unfold movementUpdate velocityOf
  dsimp only
  rw [lookup_map (fun e => integrate_id dt e),
    lookup_map (fun e => playerVelWrite_id _ e), he]
  simp only [Option.map_some', Option.some_bind, integrate_velocity]
  exact playerVelWrite_velocity_y hv _

/-! ## Claim C4 -/

/-- Every candidate findTarget returns passed the source's skip checks:
it is a registered entity, not the bullet itself and not its firedBy
owner. -/
theorem findTarget_some {w : World} {b : Entity} {bd : BulletData} {collSnap : List Nat}
    {tid : Nat} (h : findTarget w b bd collSnap = some tid) :
    ∃ other, lookup w tid = some other ∧ collisionPairOK b other bd = true ∧
      b.id ≠ tid ∧ bd.firedBy ≠ tid ∧ b.transform.isSome = true := by
  have hp := List.find?_some h
  cases hl : lookup w tid with
  | none => rw [hl] at hp; exact absurd hp (by simp)
  | some other =>
    rw [hl] at hp
    dsimp only at hp
    refine ⟨other, rfl, hp, ?_, ?_, ?_⟩
    · intro hbid
      unfold collisionPairOK at hp
      rw [if_pos (by simp [hbid, lookup_id hl])] at hp
      exact absurd hp (by simp)
    · intro hfb
      unfold collisionPairOK at hp
      rw [if_pos (by simp [hfb, lookup_id hl])] at hp
      exact absurd hp (by simp)
    · by_cases hbt : b.transform.isSome = true
      · exact hbt
      · exfalso
        unfold collisionPairOK at hp
        by_cases hskip : (b.id == other.id || bd.firedBy == other.id) = true
        · rw [if_pos hskip] at hp
          exact absurd hp (by simp)
        · rw [if_neg hskip, if_pos (by simp [Bool.eq_false_iff.mpr hbt])] at hp
          exact absurd hp (by simp)

/-- Component-preserving entity mutations do not change healthOf at any
identifier. -/
theorem healthOf_updateEntity_of_preserve {w : World} {i : Nat} {f : Entity → Entity}
    (hf : ∀ e, (f e).id = e.id) (hfh : ∀ e, (f e).health = e.health) (j : Nat) :
    healthOf (updateEntity w i f) j = healthOf w j := by
  unfold healthOf
  rw [lookup_updateEntity hf]
  cases hl : lookup w j with
  | none => rfl
  | some e =>
    by_cases hij : e.id = i
    · simp [hij, hfh]
    · simp [hij]

/-- Damage application at one target does not change healthOf elsewhere. -/
theorem healthOf_updateEntity_ne {w : World} {i j : Nat} {f : Entity → Entity}
    (hf : ∀ e, (f e).id = e.id) (hij : j ≠ i) :
    healthOf (updateEntity w i f) j = healthOf w j := by
  unfold healthOf
  rw [lookup_updateEntity_ne hf hij]

/-- Claim C4 (confirmed): CollisionSystem.update never registers a
collision between a bullet and the entity whose id equals the bullet's
firedBy: the first-match scan never selects the owner, so processing the
bullet leaves the owner's Health exactly as it was (the return-to-pool
response is never triggered on the owner's account), for all positions
and bounding-box overlaps. -/
theorem C4_self_exemption (s : BSState) (evs : List SpawnEvent) (collSnap : List Nat)
    (bid : Nat) (b : Entity) (bd : BulletData) (owner : Nat)
    (hb : lookup s.world bid = some b) (hbd : b.bullet = some bd)
    (hown : owner = bd.firedBy) :
    findTarget s.world b bd collSnap ≠ some owner ∧
    healthOf (processBullet collSnap (s, evs) bid).1.world owner =
      healthOf s.world owner := by
  have hno : findTarget s.world b bd collSnap ≠ some owner := by
    intro hft
    obtain ⟨other, _, _, _, hfb, _⟩ := findTarget_some hft
    exact hfb hown.symm
  refine ⟨hno, ?_⟩
  unfold processBullet
  dsimp only
  split
  · rfl
  · rename_i b0 hb0
    rw [hb0] at hb
    have he : b = b0 := (Option.some_inj.mp hb).symm
    subst he
    split
    · rfl
    · rename_i bd0 hbd0
      rw [hbd0] at hbd
      have hbd2 : bd = bd0 := (Option.some_inj.mp hbd).symm
      subst hbd2
      split
      · rfl
      · rename_i bpos hbt
        split
        · rfl
        · rename_i tid hft
          have htid : tid ≠ owner := fun h => hno (h ▸ hft)
          dsimp only
          unfold returnBullet
          show healthOf (updateEntity (updateEntity s.world tid _) bid deactivateBullet)
            owner = _
          rw [healthOf_updateEntity_of_preserve (fun e => deactivateBullet_id e)
            (fun e => deactivateBullet_health e)]
          rw [healthOf_updateEntity_ne (fun e => applyDamage_id _ e) (Ne.symm htid)]

/-- Witness for C4 at a concrete input: a bullet overlapping its own
firedBy owner does not select it and leaves its hp at 100. -/
theorem C4_self_exemption_witness :
    findTarget
        [⟨0, some ⟨0, 0, 0⟩, none, some ⟨100, 100⟩, none,
            some ⟨⟨-1, -1, -1⟩, ⟨1, 1, 1⟩⟩, true, false⟩,
         ⟨2, some ⟨0, 0, 0⟩, some ⟨0, 0, 0⟩, none, some ⟨10, 2, 0⟩,
            some ⟨⟨-1, -1, -1⟩, ⟨1, 1, 1⟩⟩, true, false⟩]
        ⟨2, some ⟨0, 0, 0⟩, some ⟨0, 0, 0⟩, none, some ⟨10, 2, 0⟩,
          some ⟨⟨-1, -1, -1⟩, ⟨1, 1, 1⟩⟩, true, false⟩
        ⟨10, 2, 0⟩ [0, 2] ≠ some 0 ∧
    healthOf
      (processBullet [0, 2]
        (⟨[⟨0, some ⟨0, 0, 0⟩, none, some ⟨100, 100⟩, none,
              some ⟨⟨-1, -1, -1⟩, ⟨1, 1, 1⟩⟩, true, false⟩,
           ⟨2, some ⟨0, 0, 0⟩, some ⟨0, 0, 0⟩, none, some ⟨10, 2, 0⟩,
              some ⟨⟨-1, -1, -1⟩, ⟨1, 1, 1⟩⟩, true, false⟩], []⟩, []) 2).1.world 0 =
      healthOf
        [⟨0, some ⟨0, 0, 0⟩, none, some ⟨100, 100⟩, none,
            some ⟨⟨-1, -1, -1⟩, ⟨1, 1, 1⟩⟩, true, false⟩,
         ⟨2, some ⟨0, 0, 0⟩, some ⟨0, 0, 0⟩, none, some ⟨10, 2, 0⟩,
            some ⟨⟨-1, -1, -1⟩, ⟨1, 1, 1⟩⟩, true, false⟩] 0 :=
  C4_self_exemption
    ⟨[⟨0, some ⟨0, 0, 0⟩, none, some ⟨100, 100⟩, none,
        some ⟨⟨-1, -1, -1⟩, ⟨1, 1, 1⟩⟩, true, false⟩,
      ⟨2, some ⟨0, 0, 0⟩, some ⟨0, 0, 0⟩, none, some ⟨10, 2, 0⟩,
        some ⟨⟨-1, -1, -1⟩, ⟨1, 1, 1⟩⟩, true, false⟩], []⟩
    [] [0, 2] 2
    ⟨2, some ⟨0, 0, 0⟩, some ⟨0, 0, 0⟩, none, some ⟨10, 2, 0⟩,
      some ⟨⟨-1, -1, -1⟩, ⟨1, 1, 1⟩⟩, true, false⟩
    ⟨10, 2, 0⟩ 0 rfl rfl rfl

/-! ## Claim C2 -/

/-- The collision response of CollisionSystem.update once the first-match
scan finds a target: damage, particle-burst event, pool return. -/
theorem processBullet_hit {collSnap : List Nat} {s : BSState} {evs : List SpawnEvent}
    {bid tid : Nat} {b : Entity} {bd : BulletData} {bpos : Vec3}
    (hb : lookup s.world bid = some b) (hbd : b.bullet = some bd)
    (hbt : b.transform = some bpos)
    (hft : findTarget s.world b bd collSnap = some tid) :
    processBullet collSnap (s, evs) bid =
      (returnBullet
        { s with world := updateEntity s.world tid (applyDamage bd.damage) } bid,
       evs ++ [{ position := bpos,
                 color := if (healthOf s.world tid).isSome then ⟨1, 1/5, 1/10, 1⟩
                          else ⟨1/2, 1/2, 1/2, 1⟩,
                 count := if (healthOf s.world tid).isSome then 15 else 10,
                 lifetime := 2/5, speedMin := 1, speedMax := 4 }]) := by
  unfold processBullet
  dsimp only
  split
  · rename_i hb0
    rw [hb0] at hb
    exact absurd hb (by simp)
  · rename_i b0 hb0
    rw [hb0] at hb
    have he : b = b0 := (Option.some_inj.mp hb).symm
    subst he
    split
    · rename_i hbd0
      rw [hbd0] at hbd
      exact absurd hbd (by simp)
    · rename_i bd0 hbd0
      rw [hbd0] at hbd
      have hbd2 : bd = bd0 := (Option.some_inj.mp hbd).symm
      subst hbd2
      split
      · rename_i hbt0
        rw [hbt0] at hbt
        exact absurd hbt (by simp)
      · rename_i bpos0 hbt0
        rw [hbt0] at hbt
        have hbp : bpos = bpos0 := (Option.some_inj.mp hbt).symm
        subst hbp
        split
        · rename_i hft0
          rw [hft0] at hft
          exact absurd hft (by simp)
        · rename_i tid0 hft0
          rw [hft0] at hft
          have htid : tid = tid0 := (Option.some_inj.mp hft).symm
          subst htid
          rfl

/-- Claim C2 (amended): when CollisionSystem.update processes an active
bullet of damage d and the first eligible candidate in collidable-snapshot
order whose box intersects the bullet's carries Health with hp = h at that
moment, then after that bullet's processing the target's hp equals h - d
and the bullet is returned to its pool: its Bullet component is removed
(so it leaves the active-bullets query) and its identifier is pushed onto
the pool once. -/
theorem C2_damage_application (s : BSState) (evs : List SpawnEvent) (collSnap : List Nat)
    (bid tid : Nat) (b t : Entity) (bd : BulletData) (h : HealthData)
    (hb : lookup s.world bid = some b) (hbd : b.bullet = some bd)
    (hft : findTarget s.world b bd collSnap = some tid)
    (htl : lookup s.world tid = some t) (hth : t.health = some h) :
    healthOf (processBullet collSnap (s, evs) bid).1.world tid =
      some ⟨h.hp - bd.damage, h.maxHp⟩ ∧
    bulletOf (processBullet collSnap (s, evs) bid).1.world bid = none ∧
    (processBullet collSnap (s, evs) bid).1.pool.count bid = s.pool.count bid + 1 := by
  obtain ⟨other, _, _, hbne, _, hbts⟩ := findTarget_some hft
  have hbid : b.id = bid := lookup_id hb
  have hne : bid ≠ tid := by rw [← hbid]; exact hbne
  obtain ⟨bpos, hbt⟩ := Option.isSome_iff_exists.mp hbts
  rw [processBullet_hit hb hbd hbt hft]
  unfold returnBullet
  dsimp only
  refine ⟨?_, ?_, ?_⟩
  · rw [healthOf_updateEntity_of_preserve (fun e => deactivateBullet_id e)
      (fun e => deactivateBullet_health e)]
    unfold healthOf
    rw [lookup_updateEntity_self (fun e => applyDamage_id _ e), htl]
    simp [applyDamage_health_some hth]
  · unfold bulletOf
    rw [lookup_updateEntity_self (fun e => deactivateBullet_id e),
      lookup_updateEntity_ne (fun e => applyDamage_id _ e) hne, hb]
    simp
  · rw [List.count_cons]
    simp

/-- Claim C2 counterexample: the bullet (id 2, damage 10, box around the
origin) overlaps both Health carriers id 3 (hp 100, earlier in collidable
order) and id 4 (hp 50).  Id 4 is an eligible intersecting target in the
claim's sense, yet after CollisionSystem.update its hp is still 50, not
50 - 10 = 40: first match wins and the bullet is consumed by id 3. -/
theorem C2_counterexample :
    collisionPairOK
        ⟨2, some ⟨0, 0, 0⟩, some ⟨0, 0, 0⟩, none, some ⟨10, 2, 0⟩,
          some ⟨⟨-1, -1, -1⟩, ⟨1, 1, 1⟩⟩, true, false⟩
        ⟨4, some ⟨0, 0, 0⟩, none, some ⟨50, 50⟩, none,
          some ⟨⟨-1, -1, -1⟩, ⟨1, 1, 1⟩⟩, true, false⟩
        ⟨10, 2, 0⟩ = true ∧
    healthOf
      (collisionUpdate
        ⟨[⟨2, some ⟨0, 0, 0⟩, some ⟨0, 0, 0⟩, none, some ⟨10, 2, 0⟩,
            some ⟨⟨-1, -1, -1⟩, ⟨1, 1, 1⟩⟩, true, false⟩,
          ⟨3, some ⟨0, 0, 0⟩, none, some ⟨100, 100⟩, none,
            some ⟨⟨-1, -1, -1⟩, ⟨1, 1, 1⟩⟩, true, false⟩,
          ⟨4, some ⟨0, 0, 0⟩, none, some ⟨50, 50⟩, none,
            some ⟨⟨-1, -1, -1⟩, ⟨1, 1, 1⟩⟩, true, false⟩], []⟩).1.world 4 =
      some ⟨50, 50⟩ ∧
    (50 : ℚ) ≠ 50 - 10 := by
  refine ⟨?_, ?_, by norm_num⟩
  · simp [collisionPairOK, AABB.intersects]
  · have hft : findTarget
        [⟨2, some ⟨0, 0, 0⟩, some ⟨0, 0, 0⟩, none, some ⟨10, 2, 0⟩,
            some ⟨⟨-1, -1, -1⟩, ⟨1, 1, 1⟩⟩, true, false⟩,
         ⟨3, some ⟨0, 0, 0⟩, none, some ⟨100, 100⟩, none,
            some ⟨⟨-1, -1, -1⟩, ⟨1, 1, 1⟩⟩, true, false⟩,
         ⟨4, some ⟨0, 0, 0⟩, none, some ⟨50, 50⟩, none,
            some ⟨⟨-1, -1, -1⟩, ⟨1, 1, 1⟩⟩, true, false⟩]
        ⟨2, some ⟨0, 0, 0⟩, some ⟨0, 0, 0⟩, none, some ⟨10, 2, 0⟩,
          some ⟨⟨-1, -1, -1⟩, ⟨1, 1, 1⟩⟩, true, false⟩
        ⟨10, 2, 0⟩ [2, 3, 4] = some 3 := by
      unfold findTarget
      rw [List.find?_cons_of_neg _ (by simp [lookup, List.find?, collisionPairOK])]
      exact List.find?_cons_of_pos _
        (by simp [lookup, List.find?, collisionPairOK, AABB.intersects])
    show healthOf
      ((List.foldl
        (processBullet [2, 3, 4])
        (⟨[⟨2, some ⟨0, 0, 0⟩, some ⟨0, 0, 0⟩, none, some ⟨10, 2, 0⟩,
              some ⟨⟨-1, -1, -1⟩, ⟨1, 1, 1⟩⟩, true, false⟩,
           ⟨3, some ⟨0, 0, 0⟩, none, some ⟨100, 100⟩, none,
              some ⟨⟨-1, -1, -1⟩, ⟨1, 1, 1⟩⟩, true, false⟩,
           ⟨4, some ⟨0, 0, 0⟩, none, some ⟨50, 50⟩, none,
              some ⟨⟨-1, -1, -1⟩, ⟨1, 1, 1⟩⟩, true, false⟩], []⟩, []) [2]).1.world) 4 =
      some ⟨50, 50⟩
    rw [List.foldl_cons, List.foldl_nil]
    rw [@processBullet_hit [2, 3, 4]
      ⟨[⟨2, some ⟨0, 0, 0⟩, some ⟨0, 0, 0⟩, none, some ⟨10, 2, 0⟩,
           some ⟨⟨-1, -1, -1⟩, ⟨1, 1, 1⟩⟩, true, false⟩,
        ⟨3, some ⟨0, 0, 0⟩, none, some ⟨100, 100⟩, none,
           some ⟨⟨-1, -1, -1⟩, ⟨1, 1, 1⟩⟩, true, false⟩,
        ⟨4, some ⟨0, 0, 0⟩, none, some ⟨50, 50⟩, none,
           some ⟨⟨-1, -1, -1⟩, ⟨1, 1, 1⟩⟩, true, false⟩], []⟩ [] 2 3
      ⟨2, some ⟨0, 0, 0⟩, some ⟨0, 0, 0⟩, none, some ⟨10, 2, 0⟩,
        some ⟨⟨-1, -1, -1⟩, ⟨1, 1, 1⟩⟩, true, false⟩
      ⟨10, 2, 0⟩ ⟨0, 0, 0⟩ rfl rfl rfl hft]
    unfold returnBullet
    dsimp only
    rw [healthOf_updateEntity_of_preserve (fun e => deactivateBullet_id e)
      (fun e => deactivateBullet_health e)]
    rw [healthOf_updateEntity_ne (fun e => applyDamage_id _ e) (by norm_num)]
    rfl

/-- Witness for C2 at a concrete input: the bullet (damage 10) hits the
hp-100 target first in snapshot order; its hp drops to 90 and the bullet
is pooled. -/
theorem C2_damage_application_witness :
    healthOf
        (processBullet [2, 3]
          (⟨[⟨2, some ⟨0, 0, 0⟩, some ⟨0, 0, 0⟩, none, some ⟨10, 2, 0⟩,
                some ⟨⟨-1, -1, -1⟩, ⟨1, 1, 1⟩⟩, true, false⟩,
             ⟨3, some ⟨0, 0, 0⟩, none, some ⟨100, 100⟩, none,
                some ⟨⟨-1, -1, -1⟩, ⟨1, 1, 1⟩⟩, true, false⟩], []⟩, []) 2).1.world 3 =
      some ⟨(100 : ℚ) - 10, 100⟩ ∧
    bulletOf
        (processBullet [2, 3]
          (⟨[⟨2, some ⟨0, 0, 0⟩, some ⟨0, 0, 0⟩, none, some ⟨10, 2, 0⟩,
                some ⟨⟨-1, -1, -1⟩, ⟨1, 1, 1⟩⟩, true, false⟩,
             ⟨3, some ⟨0, 0, 0⟩, none, some ⟨100, 100⟩, none,
                some ⟨⟨-1, -1, -1⟩, ⟨1, 1, 1⟩⟩, true, false⟩], []⟩, []) 2).1.world 2 = none ∧
    (processBullet [2, 3]
        (⟨[⟨2, some ⟨0, 0, 0⟩, some ⟨0, 0, 0⟩, none, some ⟨10, 2, 0⟩,
              some ⟨⟨-1, -1, -1⟩, ⟨1, 1, 1⟩⟩, true, false⟩,
           ⟨3, some ⟨0, 0, 0⟩, none, some ⟨100, 100⟩, none,
              some ⟨⟨-1, -1, -1⟩, ⟨1, 1, 1⟩⟩, true, false⟩], []⟩, []) 2).1.pool.count 2 =
      List.count 2 ([] : List Nat) + 1 :=
  C2_damage_application
    ⟨[⟨2, some ⟨0, 0, 0⟩, some ⟨0, 0, 0⟩, none, some ⟨10, 2, 0⟩,
        some ⟨⟨-1, -1, -1⟩, ⟨1, 1, 1⟩⟩, true, false⟩,
      ⟨3, some ⟨0, 0, 0⟩, none, some ⟨100, 100⟩, none,
        some ⟨⟨-1, -1, -1⟩, ⟨1, 1, 1⟩⟩, true, false⟩], []⟩
    [] [2, 3] 2 3
    ⟨2, some ⟨0, 0, 0⟩, some ⟨0, 0, 0⟩, none, some ⟨10, 2, 0⟩,
      some ⟨⟨-1, -1, -1⟩, ⟨1, 1, 1⟩⟩, true, false⟩
    ⟨3, some ⟨0, 0, 0⟩, none, some ⟨100, 100⟩, none,
      some ⟨⟨-1, -1, -1⟩, ⟨1, 1, 1⟩⟩, true, false⟩
    ⟨10, 2, 0⟩ ⟨100, 100⟩ rfl rfl
    (by
      unfold findTarget
      rw [List.find?_cons_of_neg _ (by simp [lookup, List.find?, collisionPairOK])]
      exact List.find?_cons_of_pos _
        (by simp [lookup, List.find?, collisionPairOK, AABB.intersects]))
    rfl rfl

/-! ## Claim C6 -/

theorem map_map_id {w : World} {f : Entity → Entity} (hf : ∀ e, (f e).id = e.id) :
    (w.map f).map (·.id) = w.map (·.id) := by
  rw [List.map_map]
  exact List.map_congr_left (fun e _ => hf e)

theorem lookup_of_mem_of_nodup {w : World} {e : Entity} (hm : e ∈ w)
    (hnd : (w.map (·.id)).Nodup) : lookup w e.id = some e := by
  induction w with
  | nil => exact absurd hm (by simp)
  | cons a t ih =>
    rw [List.map_cons, List.nodup_cons] at hnd
    rcases List.mem_cons.mp hm with rfl | hmt
    · simp [lookup, List.find?_cons]
    · have hne : a.id ≠ e.id := by
        intro h
        exact hnd.1 (h ▸ List.mem_map_of_mem (·.id) hmt)
      have h2 : (a.id == e.id) = false := by simp [hne]
      unfold lookup
      rw [List.find?_cons, h2]
      exact ih hmt hnd.2

theorem of_mem_bulletQueryIds {w : World} {i : Nat} (h : i ∈ bulletQueryIds w)
    (hnd : (w.map (·.id)).Nodup) :
    ∃ e, lookup w i = some e ∧ e.bullet.isSome = true ∧ e.transform.isSome = true ∧
      e.velocity.isSome = true := by
  unfold bulletQueryIds at h
  obtain ⟨e, he, hid⟩ := List.mem_map.mp h
  have hf := List.mem_filter.mp he
  have hp := hf.2
  simp only [Bool.and_eq_true] at hp
  exact ⟨e, hid ▸ lookup_of_mem_of_nodup hf.1 hnd, hp.1.1, hp.1.2, hp.2⟩

/-- Whenever the aged entity ends up with both a Transform position and a
bounding box, the box is the half-extent cube centred on that position. -/
theorem ageBullet_box {bd2 : BulletData} {e : Entity} {p : Vec3} {bb : AABB}
    (ht : (ageBullet bd2 e).transform = some p)
    (hc : (ageBullet bd2 e).collidable = some bb) :
    bb = ⟨p.sub bulletHalfExtent, p.add bulletHalfExtent⟩ := by
  obtain ⟨i, t, v, h, b, c, sv, pl⟩ := e
  unfold ageBullet at ht hc
  cases c with
  | none =>
    cases t with
    | none => exact absurd hc (by simp)
    | some p0 => exact absurd hc (by simp)
  | some c0 =>
    cases t with
    | none => exact absurd ht (by simp)
    | some p0 =>
      simp only [Option.some_inj] at ht hc
      rw [← hc, ← ht]

/-- Claim C6 (amended): after the phases that precede CollisionSystem.update
in the render loop (MovementSystem.update then BulletSystem.update), every
still-active bullet's bounding box is the half-extent cube centred on its
current-frame Transform position.  Only bullets get this recomputation:
the counterexample shows a non-bullet mover's box is left stale. -/
theorem C6_bullet_box_freshness (norm : Vec3 → Vec3) (keys : Keys) (fwd rgt : Vec3)
    (dt : ℚ) (s : BSState) (i : Nat) (e2 : Entity) (p : Vec3) (bb : AABB)
    (hnd : (s.world.map (·.id)).Nodup)
    (h2 : lookup (preCollision norm keys fwd rgt dt s).world i = some e2)
    (hb : e2.bullet.isSome = true) (ht : e2.transform = some p)
    (hv : e2.velocity.isSome = true) (hc : e2.collidable = some bb) :
    bb = ⟨p.sub bulletHalfExtent, p.add bulletHalfExtent⟩ := by
  unfold preCollision at h2
  set w1 : World := movementUpdate norm keys fwd rgt dt s.world with hw1
  have hnd1 : (w1.map (·.id)).Nodup := by
    rw [hw1]
    unfold movementUpdate
    rw [map_map_id (fun e => integrate_id dt e), map_map_id (fun e => playerVelWrite_id _ e)]
    exact hnd
  set s1 : BSState := { world := w1, pool := s.pool } with hs1
  by_cases hmem : i ∈ bulletQueryIds w1
  · obtain ⟨e1, hl1, hb1, ht1, hv1⟩ := of_mem_bulletQueryIds hmem hnd1
    obtain ⟨bd, hbd⟩ := Option.isSome_iff_exists.mp hb1
    obtain ⟨l1, l2, hsnap, hi1, hi2⟩ := mem_nodup_decomp hmem (bulletQueryIds_nodup hnd1)
    have hother : ∀ s j, j ≠ i → lookup (bulletStep dt s j).world i = lookup s.world i ∧
        (bulletStep dt s j).pool.count i = s.pool.count i :=
      fun s j hj => bulletStep_other hj
    rw [show bulletUpdate s1 dt = (bulletQueryIds w1).foldl (bulletStep dt) s1 from rfl,
      hsnap, List.foldl_append, List.foldl_cons] at h2
    obtain ⟨hw2, _⟩ := foldl_preserve hother hi1 s1
    have hl1b : lookup (l1.foldl (bulletStep dt) s1).world i = some e1 := by
      rw [hw2]; exact hl1
    obtain ⟨hsurv, hexp⟩ := @bulletStep_self dt (l1.foldl (bulletStep dt) s1) i e1 bd hl1b hbd
    obtain ⟨hw3, _⟩ := foldl_preserve hother hi2
      (bulletStep dt (l1.foldl (bulletStep dt) s1) i)
    rw [hw3] at h2
    by_cases hle : bd.lifespan - dt ≤ 0
    · obtain ⟨ha, _⟩ := hexp hle
      rw [ha] at h2
      have he2 : e2 = deactivateBullet (ageBullet { bd with lifespan := bd.lifespan - dt } e1) :=
        (Option.some_inj.mp h2).symm
      rw [he2] at hb
      exact absurd hb (by simp [deactivateBullet])
    · obtain ⟨ha, _⟩ := hsurv hle
      rw [ha] at h2
      have he2 : e2 = ageBullet { bd with lifespan := bd.lifespan - dt } e1 :=
        (Option.some_inj.mp h2).symm
      rw [he2] at ht hc
      exact ageBullet_box ht hc
  · have hsame : lookup (bulletUpdate s1 dt).world i = lookup w1 i := by
      unfold bulletUpdate
      exact (foldl_preserve (fun s j hj => bulletStep_other hj)
        (fun hmm => hmem (by exact hmm)) s1).1
    rw [hsame] at h2
    exact absurd (mem_bulletQueryIds h2 hb (by rw [ht]; rfl) hv) hmem

/-- Claim C6 counterexample: a non-bullet mover (velocity (1,0,0), box
centred on its spawn position (0,1/2,0)) moves to (1,1/2,0) during the
pre-collision phases of the tick, but its Collidable box is not
recomputed: its centre stays (0,1/2,0), so the intersection tests of that
frame do not use a box centred on the current position. -/
theorem C6_counterexample :
    transformOf
        (preCollision id noKeys ⟨0, 0, 1⟩ ⟨1, 0, 0⟩ 1
          ⟨[⟨7, some ⟨0, 1/2, 0⟩, some ⟨1, 0, 0⟩, some ⟨50, 50⟩, none,
              some ⟨⟨-(1/2), 0, -(1/2)⟩, ⟨1/2, 1, 1/2⟩⟩, true, false⟩], []⟩).world 7 =
      some ⟨1, 1/2, 0⟩ ∧
    collidableOf
        (preCollision id noKeys ⟨0, 0, 1⟩ ⟨1, 0, 0⟩ 1
          ⟨[⟨7, some ⟨0, 1/2, 0⟩, some ⟨1, 0, 0⟩, some ⟨50, 50⟩, none,
              some ⟨⟨-(1/2), 0, -(1/2)⟩, ⟨1/2, 1, 1/2⟩⟩, true, false⟩], []⟩).world 7 =
      some ⟨⟨-(1/2), 0, -(1/2)⟩, ⟨1/2, 1, 1/2⟩⟩ ∧
    (Vec3.scale (Vec3.add ⟨-(1/2), 0, -(1/2)⟩ ⟨1/2, 1, 1/2⟩) (1/2)) ≠ (⟨1, 1/2, 0⟩ : Vec3) := by
  refine ⟨?_, ?_, ?_⟩
  · simp [preCollision, movementUpdate, playerVelWrite, integrate, bulletUpdate,
      bulletQueryIds, transformOf, lookup, List.find?, Vec3.add, Vec3.scale,
      Vec3.zero, Vec3.lengthSq, moveDirection, MOVE_EPS, moveSpeed]
  · simp [preCollision, movementUpdate, playerVelWrite, integrate, bulletUpdate,
      bulletQueryIds, collidableOf, lookup, List.find?, Vec3.add, Vec3.scale,
      Vec3.zero, Vec3.lengthSq, moveDirection, MOVE_EPS, moveSpeed]
  · intro h
    rw [Vec3.mk.injEq] at h
    norm_num [Vec3.add, Vec3.scale] at h

/-- Witness for C6 at a concrete input: a single active bullet at (1,4,0)
with velocity 0 and a stale box gets its box recentred onto its position
during the pre-collision phases (dt = 0 keeps the numbers simple). -/
theorem C6_bullet_box_freshness_witness :
    (⟨⟨1/2, 7/2, -(1/2)⟩, ⟨3/2, 9/2, 1/2⟩⟩ : AABB) =
      ⟨Vec3.sub ⟨1, 4, 0⟩ bulletHalfExtent, Vec3.add ⟨1, 4, 0⟩ bulletHalfExtent⟩ :=
  C6_bullet_box_freshness id noKeys ⟨0, 0, 1⟩ ⟨1, 0, 0⟩ 0
    ⟨[⟨0, some ⟨1, 4, 0⟩, some ⟨0, 0, 0⟩, none, some ⟨10, 2, 0⟩,
        some ⟨⟨-9, -9, -9⟩, ⟨9, 9, 9⟩⟩, true, false⟩], []⟩
    0
    ⟨0, some ⟨1, 4, 0⟩, some ⟨0, 0, 0⟩, none, some ⟨10, 2 - 0, 0⟩,
      some ⟨⟨1/2, 7/2, -(1/2)⟩, ⟨3/2, 9/2, 1/2⟩⟩, true, false⟩
    ⟨1, 4, 0⟩ ⟨⟨1/2, 7/2, -(1/2)⟩, ⟨3/2, 9/2, 1/2⟩⟩
    (by decide)
    (by
      simp [preCollision, movementUpdate, playerVelWrite, integrate, bulletUpdate,
        bulletQueryIds, bulletStep, ageBullet, returnBullet, deactivateBullet,
        lookup, updateEntity, List.find?, List.filter, Vec3.add, Vec3.sub, Vec3.scale,
        Vec3.zero, Vec3.lengthSq, moveDirection, MOVE_EPS, moveSpeed, bulletHalfExtent]
      norm_num)
    rfl rfl rfl rfl

/-! ## Claim C8 -/

@[simp] theorem playerVelWrite_health (md : Vec3) (e : Entity) :
    (playerVelWrite md e).health = e.health := by
  obtain ⟨i, t, v, h, b, c, sv, pl⟩ := e
  unfold playerVelWrite
  by_cases hp : pl && t.isSome
  · rw [if_pos (by simpa using hp)]; cases v <;> rfl
  · rw [if_neg (by simpa using hp)]

@[simp] theorem playerVelWrite_bullet (md : Vec3) (e : Entity) :
    (playerVelWrite md e).bullet = e.bullet := by
  obtain ⟨i, t, v, h, b, c, sv, pl⟩ := e
  unfold playerVelWrite
  by_cases hp : pl && t.isSome
  · rw [if_pos (by simpa using hp)]; cases v <;> rfl
  · rw [if_neg (by simpa using hp)]

@[simp] theorem integrate_health (dt : ℚ) (e : Entity) :
    (integrate dt e).health = e.health := by
  obtain ⟨i, t, v, h, b, c, sv, pl⟩ := e
  unfold integrate
  cases t <;> cases v <;> rfl

@[simp] theorem integrate_bullet (dt : ℚ) (e : Entity) :
    (integrate dt e).bullet = e.bullet := by
  obtain ⟨i, t, v, h, b, c, sv, pl⟩ := e
  unfold integrate
  cases t <;> cases v <;> rfl

/-- healthOf is unchanged by mapping a health- and id-preserving mutation
over the world. -/
theorem healthOf_map_of_preserve {w : World} {f : Entity → Entity}
    (hf : ∀ e, (f e).id = e.id) (hfh : ∀ e, (f e).health = e.health) (i : Nat) :
    healthOf (w.map f) i = healthOf w i := by
  unfold healthOf
  rw [lookup_map hf]
  cases lookup w i with
  | none => rfl
  | some e => simp [hfh]

/-- All bullet components in the world carry nonnegative damage (true of
every bullet the BulletSystem creates: BULLET_DAMAGE = 10). -/
def damagesNonneg (w : World) : Prop :=
  ∀ e ∈ w, ∀ bd : BulletData, e.bullet = some bd → 0 ≤ bd.damage

/-- Pointwise comparison of optional Health states: the hp may only have
decreased, the maximum and the presence are unchanged. -/
def hpLe : Option HealthData → Option HealthData → Prop
  | none, none => True
  | some h2, some h1 => h2.hp ≤ h1.hp ∧ h2.maxHp = h1.maxHp
  | _, _ => False

theorem hpLe_refl (o : Option HealthData) : hpLe o o := by
  cases o with
  | none => trivial
  | some h => exact ⟨le_refl _, rfl⟩

theorem hpLe_trans {a b c : Option HealthData} (h1 : hpLe a b) (h2 : hpLe b c) :
    hpLe a c := by
  cases a <;> cases b <;> cases c <;> simp [hpLe] at h1 h2 ⊢
  exact ⟨h1.1.trans h2.1, h1.2.trans h2.2⟩

theorem hpLe_of_eq {a b : Option HealthData} (h : a = b) : hpLe a b :=
  h ▸ hpLe_refl a

theorem damagesNonneg_updateEntity {w : World} {i : Nat} {f : Entity → Entity}
    (hP : damagesNonneg w)
    (hf : ∀ e ∈ w, ∀ bd : BulletData, (f e).bullet = some bd → 0 ≤ bd.damage) :
    damagesNonneg (updateEntity w i f) := by
  intro e2 he2 bd hbd
  obtain ⟨e, he, hge⟩ := List.mem_map.mp he2
  by_cases hid : e.id = i
  · rw [if_pos hid] at hge
    exact hf e he bd (hge ▸ hbd)
  · rw [if_neg hid] at hge
    exact hP e he bd (hge ▸ hbd)

theorem damagesNonneg_map {w : World} {f : Entity → Entity} (hP : damagesNonneg w)
    (hf : ∀ e, (f e).bullet = e.bullet) : damagesNonneg (w.map f) := by
  intro e2 he2 bd hbd
  obtain ⟨e, he, hge⟩ := List.mem_map.mp he2
  apply hP e he bd
  rw [← hf e, hge]
  exact hbd

/-- Damage application with nonnegative damage only lowers hp, preserving
presence and maxHp. -/
theorem applyDamage_hpLe {w : World} {tid : Nat} {dmg : ℚ} (hd : 0 ≤ dmg) (i : Nat) :
    hpLe (healthOf (updateEntity w tid (applyDamage dmg)) i) (healthOf w i) := by
  by_cases hit : i = tid
  · subst hit
    unfold healthOf
    rw [lookup_updateEntity_self (fun e => applyDamage_id _ e)]
    cases hl : lookup w i with
    | none => trivial
    | some e =>
      cases hh : e.health with
      | none => simp [applyDamage, hh, hpLe]
      | some h => simp [applyDamage, hh, hpLe]; linarith
  · exact hpLe_of_eq (healthOf_updateEntity_ne (fun e => applyDamage_id _ e) hit)

/-- One collision-response step only lowers hp values and keeps all bullet
damages nonnegative. -/
theorem processBullet_hpLe {collSnap : List Nat} {st : BSState × List SpawnEvent}
    {bid : Nat} (hP : damagesNonneg st.1.world) (i : Nat) :
    hpLe (healthOf (processBullet collSnap st bid).1.world i) (healthOf st.1.world i) ∧
    damagesNonneg (processBullet collSnap st bid).1.world := by
  unfold processBullet
  dsimp only
  split
  · exact ⟨hpLe_refl _, hP⟩
  · rename_i b hb
    split
    · exact ⟨hpLe_refl _, hP⟩
    · rename_i bd hbd
      split
      · exact ⟨hpLe_refl _, hP⟩
      · rename_i bpos hbt
        split
        · exact ⟨hpLe_refl _, hP⟩
        · rename_i tid hft
          dsimp only
          unfold returnBullet
          have hdmg : 0 ≤ bd.damage :=
            hP b (mem_of_lookup hb) bd hbd
          constructor
          · show hpLe (healthOf (updateEntity (updateEntity st.1.world tid _) bid
              deactivateBullet) i) _
            rw [healthOf_updateEntity_of_preserve (fun e => deactivateBullet_id e)
              (fun e => deactivateBullet_health e)]
            exact applyDamage_hpLe hdmg i
          · apply damagesNonneg_updateEntity
            · apply damagesNonneg_updateEntity hP
              intro e he bd2 hbd2
              rw [applyDamage_bullet] at hbd2
              exact hP e he bd2 hbd2
            · intro e _ bd2 hbd2
              rw [deactivateBullet_bullet] at hbd2
              exact absurd hbd2 (by simp)

theorem foldl_processBullet_hpLe (collSnap : List Nat) (l : List Nat)
    (st : BSState × List SpawnEvent) (hP : damagesNonneg st.1.world) (i : Nat) :
    hpLe (healthOf (l.foldl (processBullet collSnap) st).1.world i)
      (healthOf st.1.world i) := by
  induction l generalizing st with
  | nil => exact hpLe_refl _
  | cons j t ih =>
    rw [List.foldl_cons]
    obtain ⟨h1, h2⟩ := @processBullet_hpLe collSnap st j hP i
    exact hpLe_trans (ih (processBullet collSnap st j) h2) h1

/-- healthOf is untouched by one bullet-aging step. -/
theorem bulletStep_healthOf {dt : ℚ} {s : BSState} {j : Nat} (i : Nat) :
    healthOf (bulletStep dt s j).world i = healthOf s.world i := by
  unfold bulletStep
  split
  · rfl
  · rename_i e hl
    split
    · rfl
    · rename_i bd hb
      dsimp only
      split
      · unfold returnBullet
        show healthOf (updateEntity (updateEntity s.world j _) j deactivateBullet) i = _
        rw [healthOf_updateEntity_of_preserve (fun e => deactivateBullet_id e)
            (fun e => deactivateBullet_health e),
          healthOf_updateEntity_of_preserve
            (fun e => ageBullet_id { bd with lifespan := bd.lifespan - dt } e)
            (fun e => ageBullet_health { bd with lifespan := bd.lifespan - dt } e)]
      · exact healthOf_updateEntity_of_preserve
          (fun e => ageBullet_id { bd with lifespan := bd.lifespan - dt } e)
          (fun e => ageBullet_health { bd with lifespan := bd.lifespan - dt } e) i

theorem bulletUpdate_healthOf (s : BSState) (dt : ℚ) (i : Nat) :
    healthOf (bulletUpdate s dt).world i = healthOf s.world i := by
  unfold bulletUpdate
  generalize bulletQueryIds s.world = l
  induction l generalizing s with
  | nil => rfl
  | cons j t ih =>
    rw [List.foldl_cons, ih (bulletStep dt s j), bulletStep_healthOf i]

/-- One bullet-aging step keeps all damages nonnegative (the lifespan
decrement leaves the damage field alone). -/
theorem bulletStep_damagesNonneg {dt : ℚ} {s : BSState} {j : Nat}
    (hP : damagesNonneg s.world) : damagesNonneg (bulletStep dt s j).world := by
  unfold bulletStep
  split
  · exact hP
  · rename_i e hl
    split
    · exact hP
    · rename_i bd hb
      have hdm : 0 ≤ bd.damage := hP e (mem_of_lookup hl) bd hb
      have hage : damagesNonneg (updateEntity s.world j
          (ageBullet { bd with lifespan := bd.lifespan - dt })) := by
        apply damagesNonneg_updateEntity hP
        intro e2 _ bd2 hbd2
        rw [ageBullet_bullet] at hbd2
        have : bd2 = { bd with lifespan := bd.lifespan - dt } :=
          (Option.some_inj.mp hbd2).symm
        rw [this]
        exact hdm
      dsimp only
      split
      · unfold returnBullet
        apply damagesNonneg_updateEntity hage
        intro e2 _ bd2 hbd2
        rw [deactivateBullet_bullet] at hbd2
        exact absurd hbd2 (by simp)
      · exact hage

theorem bulletUpdate_damagesNonneg (s : BSState) (dt : ℚ)
    (hP : damagesNonneg s.world) : damagesNonneg (bulletUpdate s dt).world := by
  unfold bulletUpdate
  generalize bulletQueryIds s.world = l
  induction l generalizing s with
  | nil => exact hP
  | cons j t ih =>
    rw [List.foldl_cons]
    exact ih (bulletStep dt s j) (bulletStep_damagesNonneg hP)

/-- Claim C8 (amended): within one full tick no system ever raises an hp
value — movement and bullet aging leave Health alone and the collision
response subtracts nonnegative damages without clamping — so hp is
monotonically nonincreasing per tick; it is NOT restored to ≥ 0 at rest
(the counterexample shows an entity resting at hp = -10, because entities
at hp ≤ 0 remain collidable and keep taking damage). -/
theorem C8_hp_monotone (norm : Vec3 → Vec3) (keys : Keys) (fwd rgt : Vec3)
    (dt : ℚ) (s : BSState) (i : Nat) (h1 : HealthData)
    (hP : damagesNonneg s.world)
    (hh : healthOf s.world i = some h1) :
    ∃ h2 : HealthData, healthOf (tick norm keys fwd rgt dt s).world i = some h2 ∧
      h2.hp ≤ h1.hp ∧ h2.maxHp = h1.maxHp := by
  unfold tick preCollision
  set w1 : World := movementUpdate norm keys fwd rgt dt s.world with hw1
  set s1 : BSState := { world := w1, pool := s.pool } with hs1
  have hmov : healthOf w1 i = healthOf s.world i := by
    rw [hw1]
    unfold movementUpdate
    rw [healthOf_map_of_preserve (fun e => integrate_id dt e)
        (fun e => integrate_health dt e),
      healthOf_map_of_preserve (fun e => playerVelWrite_id _ e)
        (fun e => playerVelWrite_health _ e)]
  have hPmov : damagesNonneg w1 := by
    rw [hw1]
    unfold movementUpdate
    apply damagesNonneg_map
    · apply damagesNonneg_map hP
      exact fun e => playerVelWrite_bullet _ e
    · exact fun e => integrate_bullet dt e
  have hbu : healthOf (bulletUpdate s1 dt).world i = some h1 := by
    rw [bulletUpdate_healthOf, hs1]
    exact hmov.trans hh
  have hPbu : damagesNonneg (bulletUpdate s1 dt).world :=
    bulletUpdate_damagesNonneg s1 dt hPmov
  have hcoll : hpLe (healthOf (collisionUpdate (bulletUpdate s1 dt)).1.world i)
      (healthOf (bulletUpdate s1 dt).world i) := by
    unfold collisionUpdate
    exact foldl_processBullet_hpLe _ _ _ hPbu i
  rw [hbu] at hcoll
  cases hfin : healthOf (collisionUpdate (bulletUpdate s1 dt)).1.world i with
  | none => rw [hfin] at hcoll; exact absurd hcoll (by simp [hpLe])
  | some h2 =>
    rw [hfin] at hcoll
    exact ⟨h2, rfl, hcoll.1, hcoll.2⟩

/-- Claim C8 counterexample: an already-dead target (hp = 0) is still in
the collidable set, so a bullet hit during the tick leaves it resting at
hp = -10 < 0 after the tick completes — hp is negative at rest. -/
theorem C8_counterexample :
    healthOf
        (tick id noKeys ⟨0, 0, 1⟩ ⟨1, 0, 0⟩ 1
          ⟨[⟨2, some ⟨0, 0, 0⟩, some ⟨0, 0, 0⟩, none, some ⟨10, 2, 0⟩,
              some ⟨⟨-(1/2), -(1/2), -(1/2)⟩, ⟨1/2, 1/2, 1/2⟩⟩, true, false⟩,
            ⟨3, some ⟨0, 0, 0⟩, none, some ⟨0, 50⟩, none,
              some ⟨⟨-(1/2), -(1/2), -(1/2)⟩, ⟨1/2, 1/2, 1/2⟩⟩, true, false⟩], []⟩).world 3 =
      some ⟨-10, 50⟩ ∧
    (-10 : ℚ) < 0 := by
  refine ⟨?_, by norm_num⟩
  have hpre : preCollision id noKeys ⟨0, 0, 1⟩ ⟨1, 0, 0⟩ 1
      ⟨[⟨2, some ⟨0, 0, 0⟩, some ⟨0, 0, 0⟩, none, some ⟨10, 2, 0⟩,
          some ⟨⟨-(1/2), -(1/2), -(1/2)⟩, ⟨1/2, 1/2, 1/2⟩⟩, true, false⟩,
        ⟨3, some ⟨0, 0, 0⟩, none, some ⟨0, 50⟩, none,
          some ⟨⟨-(1/2), -(1/2), -(1/2)⟩, ⟨1/2, 1/2, 1/2⟩⟩, true, false⟩], []⟩ =
      ⟨[⟨2, some ⟨0, 0, 0⟩, some ⟨0, 0, 0⟩, none, some ⟨10, 1, 0⟩,
          some ⟨⟨-(1/2), -(1/2), -(1/2)⟩, ⟨1/2, 1/2, 1/2⟩⟩, true, false⟩,
        ⟨3, some ⟨0, 0, 0⟩, none, some ⟨0, 50⟩, none,
          some ⟨⟨-(1/2), -(1/2), -(1/2)⟩, ⟨1/2, 1/2, 1/2⟩⟩, true, false⟩], []⟩ := by
    simp [preCollision, movementUpdate, playerVelWrite, integrate, bulletUpdate,
      bulletQueryIds, bulletStep, ageBullet, returnBullet, deactivateBullet,
      lookup, updateEntity, List.find?, List.filter, Vec3.add, Vec3.sub, Vec3.scale,
      Vec3.zero, Vec3.lengthSq, moveDirection, MOVE_EPS, moveSpeed, bulletHalfExtent]
    norm_num
  show healthOf (collisionUpdate (preCollision id noKeys ⟨0, 0, 1⟩ ⟨1, 0, 0⟩ 1 _)).1.world 3 = _
  rw [hpre]
  have hft : findTarget
      [⟨2, some ⟨0, 0, 0⟩, some ⟨0, 0, 0⟩, none, some ⟨10, 1, 0⟩,
          some ⟨⟨-(1/2), -(1/2), -(1/2)⟩, ⟨1/2, 1/2, 1/2⟩⟩, true, false⟩,
       ⟨3, some ⟨0, 0, 0⟩, none, some ⟨0, 50⟩, none,
          some ⟨⟨-(1/2), -(1/2), -(1/2)⟩, ⟨1/2, 1/2, 1/2⟩⟩, true, false⟩]
      ⟨2, some ⟨0, 0, 0⟩, some ⟨0, 0, 0⟩, none, some ⟨10, 1, 0⟩,
        some ⟨⟨-(1/2), -(1/2), -(1/2)⟩, ⟨1/2, 1/2, 1/2⟩⟩, true, false⟩
      ⟨10, 1, 0⟩ [2, 3] = some 3 := by
    unfold findTarget
    rw [List.find?_cons_of_neg _ (by simp [lookup, List.find?, collisionPairOK])]
    exact List.find?_cons_of_pos _
      (by simp [lookup, List.find?, collisionPairOK, AABB.intersects])
  unfold collisionUpdate
  dsimp only
  rw [show collidableQueryIds
      [⟨2, some ⟨0, 0, 0⟩, some ⟨0, 0, 0⟩, none, some ⟨10, 1, 0⟩,
          some ⟨⟨-(1/2), -(1/2), -(1/2)⟩, ⟨1/2, 1/2, 1/2⟩⟩, true, false⟩,
       ⟨3, some ⟨0, 0, 0⟩, none, some ⟨0, 50⟩, none,
          some ⟨⟨-(1/2), -(1/2), -(1/2)⟩, ⟨1/2, 1/2, 1/2⟩⟩, true, false⟩] = [2, 3] from rfl,
    show collisionBulletIds
      [⟨2, some ⟨0, 0, 0⟩, some ⟨0, 0, 0⟩, none, some ⟨10, 1, 0⟩,
          some ⟨⟨-(1/2), -(1/2), -(1/2)⟩, ⟨1/2, 1/2, 1/2⟩⟩, true, false⟩,
       ⟨3, some ⟨0, 0, 0⟩, none, some ⟨0, 50⟩, none,
          some ⟨⟨-(1/2), -(1/2), -(1/2)⟩, ⟨1/2, 1/2, 1/2⟩⟩, true, false⟩] = [2] from rfl]
  rw [List.foldl_cons, List.foldl_nil]
  rw [@processBullet_hit [2, 3]
    ⟨[⟨2, some ⟨0, 0, 0⟩, some ⟨0, 0, 0⟩, none, some ⟨10, 1, 0⟩,
          some ⟨⟨-(1/2), -(1/2), -(1/2)⟩, ⟨1/2, 1/2, 1/2⟩⟩, true, false⟩,
       ⟨3, some ⟨0, 0, 0⟩, none, some ⟨0, 50⟩, none,
          some ⟨⟨-(1/2), -(1/2), -(1/2)⟩, ⟨1/2, 1/2, 1/2⟩⟩, true, false⟩], []⟩ [] 2 3
    ⟨2, some ⟨0, 0, 0⟩, some ⟨0, 0, 0⟩, none, some ⟨10, 1, 0⟩,
      some ⟨⟨-(1/2), -(1/2), -(1/2)⟩, ⟨1/2, 1/2, 1/2⟩⟩, true, false⟩
    ⟨10, 1, 0⟩ ⟨0, 0, 0⟩ rfl rfl rfl hft]
  unfold returnBullet
  dsimp only
  rw [healthOf_updateEntity_of_preserve (fun e => deactivateBullet_id e)
    (fun e => deactivateBullet_health e)]
  show healthOf (updateEntity _ 3 (applyDamage 10)) 3 = _
  unfold healthOf
  rw [lookup_updateEntity_self (fun e => applyDamage_id _ e)]
  rw [show lookup
      [⟨2, some ⟨0, 0, 0⟩, some ⟨0, 0, 0⟩, none, some ⟨10, 1, 0⟩,
          some ⟨⟨-(1/2), -(1/2), -(1/2)⟩, ⟨1/2, 1/2, 1/2⟩⟩, true, false⟩,
       ⟨3, some ⟨0, 0, 0⟩, none, some ⟨0, 50⟩, none,
          some ⟨⟨-(1/2), -(1/2), -(1/2)⟩, ⟨1/2, 1/2, 1/2⟩⟩, true, false⟩] 3 =
      some ⟨3, some ⟨0, 0, 0⟩, none, some ⟨0, 50⟩, none,
        some ⟨⟨-(1/2), -(1/2), -(1/2)⟩, ⟨1/2, 1/2, 1/2⟩⟩, true, false⟩ from rfl]
  simp [applyDamage]

/-- Witness for C8 at a concrete input: a bullet-free world with one
hp = 5 entity keeps a present Health with maxHp 50 through a tick. -/
theorem C8_hp_monotone_witness :
    (healthOf
        (tick id noKeys ⟨0, 0, 1⟩ ⟨1, 0, 0⟩ 1
          ⟨[⟨3, some ⟨0, 0, 0⟩, none, some ⟨5, 50⟩, none,
              some ⟨⟨-(1/2), -(1/2), -(1/2)⟩, ⟨1/2, 1/2, 1/2⟩⟩, true, false⟩], []⟩).world 3).map
      HealthData.maxHp = some 50 := by
  obtain ⟨h2, hh2, hle, hmax⟩ := C8_hp_monotone id noKeys ⟨0, 0, 1⟩ ⟨1, 0, 0⟩ 1
    ⟨[⟨3, some ⟨0, 0, 0⟩, none, some ⟨5, 50⟩, none,
        some ⟨⟨-(1/2), -(1/2), -(1/2)⟩, ⟨1/2, 1/2, 1/2⟩⟩, true, false⟩], []⟩ 3 ⟨5, 50⟩
    (by
      intro e he bd hbd
      simp only [List.mem_singleton] at he
      subst he
      exact absurd hbd (by simp))
    rfl
  rw [hh2, Option.map_some', hmax]

/-! ## Claim C1 -/

/-- The pool-discipline invariant: pooled plus active accounts for the
whole capacity, the pool is duplicate-free, pooled entities are inactive,
and the registry still holds exactly the pre-allocated identifiers. -/
structure PoolInv (n : Nat) (s : BSState) : Prop where
  conservation : s.pool.length + activeCount s.world = n
  nodup : s.pool.Nodup
  poolInactive : ∀ i ∈ s.pool, ∃ e, lookup s.world i = some e ∧ e.bullet = none
  ids : s.world.map (·.id) = List.range n

theorem poolInv_init (n : Nat) : PoolInv n (initBulletSystem n) := by
  have hids : ((List.range n).map blankEntity).map (·.id) = List.range n := by
    rw [List.map_map]
    have h1 : List.map ((fun x => x.id) ∘ blankEntity) (List.range n) =
        List.map (fun i => i) (List.range n) :=
      List.map_congr_left (fun i _ => rfl)
    rw [h1, List.map_id']
  refine ⟨?_, ?_, ?_, hids⟩
  · unfold initBulletSystem activeCount
    rw [List.length_reverse, List.length_range]
    have hz : ((List.range n).map blankEntity).countP (fun e => e.bullet.isSome) = 0 := by
      apply List.countP_eq_zero.mpr
      intro e he
      obtain ⟨i, _, rfl⟩ := List.mem_map.mp he
      simp [blankEntity]
    rw [hz]
    omega
  · exact List.nodup_reverse.mpr (List.nodup_range n)
  · intro i hi
    rw [show (initBulletSystem n).pool = (List.range n).reverse from rfl,
      List.mem_reverse] at hi
    have hmem : blankEntity i ∈ (List.range n).map blankEntity :=
      List.mem_map_of_mem blankEntity hi
    have hl := lookup_of_mem_of_nodup hmem (by rw [hids]; exact List.nodup_range n)
    exact ⟨blankEntity i, hl, rfl⟩

theorem poolInv_fire (n : Nat) (fb : Nat) (p d : Vec3) {s : BSState}
    (h : PoolInv n s) : PoolInv n (fireBullet s fb p d) := by
  unfold fireBullet
  split
  · exact h
  · rename_i top rest hpool
    obtain ⟨e, hle, hbe⟩ := h.poolInactive top (by rw [hpool]; exact List.mem_cons_self _ _)
    have hnodids : (s.world.map (·.id)).Nodup := by
      rw [h.ids]; exact List.nodup_range n
    obtain ⟨l1, l2, hw, h1⟩ := lookup_decomp hle
    have h2 : ∀ x ∈ l2, x.id ≠ top :=
      decomp_right_ne (by rw [← hw]; exact hnodids) (lookup_id hle)
    have hupd := updateEntity_decomp
      (activateBullet fb { p.add (d.scale (1/2)) with y := 4 } (d.scale BULLET_SPEED))
      (lookup_id hle) h1 h2
    rw [← hw] at hupd
    have hpoolrest : s.pool.Nodup := h.nodup
    rw [hpool, List.nodup_cons] at hpoolrest
    refine ⟨?_, hpoolrest.2, ?_, ?_⟩
    · show rest.length + activeCount (updateEntity s.world top _) = n
      rw [hupd]
      unfold activeCount
      have hba : (activateBullet fb { p.add (d.scale (1/2)) with y := 4 }
          (d.scale BULLET_SPEED) e).bullet.isSome = true := by
        rw [activateBullet_bullet hbe]; rfl
      have hstep := List.countP_cons_of_pos (fun e : Entity => e.bullet.isSome) l2 hba
      rw [List.countP_append, hstep]
      have hcons := h.conservation
      rw [hpool, hw] at hcons
      unfold activeCount at hcons
      have hstep2 := @List.countP_cons_of_neg Entity (fun e : Entity => e.bullet.isSome) e l2
        (by simp only [hbe]; simp)
      rw [List.countP_append, hstep2] at hcons
      simp only [List.length_cons] at hcons
      omega
    · intro i hi
      have hitop : i ≠ top := by
        intro hit
        exact hpoolrest.1 (hit ▸ hi)
      obtain ⟨e2, hle2, hbe2⟩ := h.poolInactive i (by rw [hpool]; exact List.mem_cons_of_mem _ hi)
      refine ⟨e2, ?_, hbe2⟩
      rw [lookup_updateEntity_ne (fun e => activateBullet_id _ _ _ e) hitop]
      exact hle2
    · rw [updateEntity_map_id (fun e => activateBullet_id _ _ _ e)]
      exact h.ids

theorem poolInv_ret (n : Nat) (i : Nat) {s : BSState} (h : PoolInv n s)
    (hact : isActive s.world i = true) : PoolInv n (returnBullet s i) := by
  unfold isActive bulletOf at hact
  rw [Option.isSome_iff_exists] at hact
  obtain ⟨bd, hbd⟩ := hact
  cases hle : lookup s.world i with
  | none => rw [hle] at hbd; exact absurd hbd (by simp)
  | some e =>
    rw [hle] at hbd
    simp only [Option.some_bind] at hbd
    have hinp : i ∉ s.pool := by
      intro hip
      obtain ⟨e2, hle2, hbe2⟩ := h.poolInactive i hip
      rw [hle] at hle2
      have he2 : e2 = e := (Option.some_inj.mp hle2).symm
      rw [he2] at hbe2
      rw [hbe2] at hbd
      exact absurd hbd (by simp)
    have hnodids : (s.world.map (·.id)).Nodup := by
      rw [h.ids]; exact List.nodup_range n
    obtain ⟨l1, l2, hw, h1⟩ := lookup_decomp hle
    have h2 : ∀ x ∈ l2, x.id ≠ i :=
      decomp_right_ne (by rw [← hw]; exact hnodids) (lookup_id hle)
    have hupd := updateEntity_decomp deactivateBullet (lookup_id hle) h1 h2
    rw [← hw] at hupd
    refine ⟨?_, ?_, ?_, ?_⟩
    · show (i :: s.pool).length + activeCount (updateEntity s.world i deactivateBullet) = n
      rw [hupd]
      unfold activeCount
      have hstep := @List.countP_cons_of_neg Entity (fun e : Entity => e.bullet.isSome)
        (deactivateBullet e) l2 (by simp only [deactivateBullet_bullet]; simp)
      rw [List.countP_append, hstep]
      have hcons := h.conservation
      rw [hw] at hcons
      unfold activeCount at hcons
      have hstep2 := @List.countP_cons_of_pos Entity (fun e : Entity => e.bullet.isSome) e l2
        (by simp only [hbd]; rfl)
      rw [List.countP_append, hstep2] at hcons
      simp only [List.length_cons]
      omega
    · rw [show (returnBullet s i).pool = i :: s.pool from rfl, List.nodup_cons]
      exact ⟨hinp, h.nodup⟩
    · intro j hj
      rw [show (returnBullet s i).pool = i :: s.pool from rfl] at hj
      rcases List.mem_cons.mp hj with rfl | hjp
      · refine ⟨deactivateBullet e, ?_, rfl⟩
        show lookup (updateEntity s.world j deactivateBullet) j = _
        rw [lookup_updateEntity_self (fun e => deactivateBullet_id e), hle]
        rfl
      · have hji : j ≠ i := fun hj2 => hinp (hj2 ▸ hjp)
        obtain ⟨e2, hle2, hbe2⟩ := h.poolInactive j hjp
        refine ⟨e2, ?_, hbe2⟩
        show lookup (updateEntity s.world i deactivateBullet) j = _
        rw [lookup_updateEntity_ne (fun e => deactivateBullet_id e) hji]
        exact hle2
    · show (updateEntity s.world i deactivateBullet).map (·.id) = _
      rw [updateEntity_map_id (fun e => deactivateBullet_id e)]
      exact h.ids

theorem poolInv_run {n : Nat} {s : BSState} {calls : List Call} (h : PoolInv n s)
    (hd : disciplined s calls = true) : PoolInv n (run s calls) := by
  induction calls generalizing s with
  | nil => exact h
  | cons c cs ih =>
    unfold disciplined at hd
    rw [Bool.and_eq_true] at hd
    have hstep : PoolInv n (step s c) := by
      cases c with
      | fire fb p d => exact poolInv_fire n fb p d h
      | ret i => exact poolInv_ret n i h hd.1
    exact ih hstep hd.2

/-- Claim C1 (amended): for every capacity n and every disciplined
sequence of fireBullet/returnBullet calls — one in which returnBullet is
only ever invoked on a currently active bullet, which is the discipline
the source's two call sites observe — the number of pooled identifiers
plus the number of active bullets equals n at all times and no identifier
appears in the pool twice.  Without that discipline the guarantee fails:
returnBullet pushes unconditionally, so a double return double-pushes
(see the counterexample). -/
theorem C1_pool_conservation (n : Nat) (calls : List Call)
    (hd : disciplined (initBulletSystem n) calls = true) :
    (run (initBulletSystem n) calls).pool.length +
      activeCount (run (initBulletSystem n) calls).world = n ∧
    (run (initBulletSystem n) calls).pool.Nodup := by
  have h := poolInv_run (poolInv_init n) hd
  exact ⟨h.conservation, h.nodup⟩

/-- Claim C1 counterexample: on a capacity-2 pool, fire one bullet and
call returnBullet on it twice.  The pool then holds the identifier twice:
its length plus the active count is 3 ≠ 2 and the pool has a duplicate —
the implementation has no active/inactive guard preventing the
double-push. -/
theorem C1_counterexample :
    (run (initBulletSystem 2)
        [.fire 0 ⟨0, 0, 0⟩ ⟨1, 0, 0⟩, .ret 1, .ret 1]).pool.length +
      activeCount (run (initBulletSystem 2)
        [.fire 0 ⟨0, 0, 0⟩ ⟨1, 0, 0⟩, .ret 1, .ret 1]).world = 3 ∧
    ¬ (run (initBulletSystem 2)
        [.fire 0 ⟨0, 0, 0⟩ ⟨1, 0, 0⟩, .ret 1, .ret 1]).pool.Nodup := by
  constructor
  · rfl
  · decide

/-- Witness for C1 at a concrete input: capacity 2, a fire followed by a
disciplined return and a second fire. -/
theorem C1_pool_conservation_witness :
    (run (initBulletSystem 2)
        [.fire 0 ⟨0, 0, 0⟩ ⟨1, 0, 0⟩, .ret 1, .fire 0 ⟨0, 0, 0⟩ ⟨1, 0, 0⟩]).pool.length +
      activeCount (run (initBulletSystem 2)
        [.fire 0 ⟨0, 0, 0⟩ ⟨1, 0, 0⟩, .ret 1, .fire 0 ⟨0, 0, 0⟩ ⟨1, 0, 0⟩]).world = 2 ∧
    (run (initBulletSystem 2)
        [.fire 0 ⟨0, 0, 0⟩ ⟨1, 0, 0⟩, .ret 1, .fire 0 ⟨0, 0, 0⟩ ⟨1, 0, 0⟩]).pool.Nodup :=
  C1_pool_conservation 2 [.fire 0 ⟨0, 0, 0⟩ ⟨1, 0, 0⟩, .ret 1, .fire 0 ⟨0, 0, 0⟩ ⟨1, 0, 0⟩]
    (by decide)

/-! ## Claim C9 -/

/-- spawnParticles over a fully inactive pool: min(count, capacity) slots
are activated, each initialized from one batch of random draws at the
current clock; the pool size is unchanged and untouched slots stay
inactive. -/
theorem spawnScan_spec (now : ℚ) (pos : Vec3) (colorA lt smin smax : ℚ)
    (rnd : Nat → Rnd) (slots : List Slot) :
    ∀ (c k : Nat), (∀ sl ∈ slots, sl.isVisible = false ∧ sl.data = none) →
      pActiveCount (spawnScan now pos colorA lt smin smax rnd slots c k).1 =
        min c slots.length ∧
      (spawnScan now pos colorA lt smin smax rnd slots c k).1.length = slots.length ∧
      ∀ sl2 ∈ (spawnScan now pos colorA lt smin smax rnd slots c k).1,
        (sl2.isVisible = false ∧ sl2.data = none) ∨
        (sl2.isVisible = true ∧ sl2.position = pos ∧ sl2.alpha = colorA ∧
          ∃ j, sl2.data = some (mkParticle now pos lt smin smax (rnd j))) := by
  induction slots with
  | nil =>
    intro c k h
    refine ⟨?_, rfl, ?_⟩
    · simp [spawnScan, pActiveCount]
    · intro sl2 h2
      exact absurd h2 (by simp [spawnScan])
  | cons sl rest ih =>
    intro c k h
    have hsl := h sl (List.mem_cons_self _ _)
    have hrest : ∀ s2 ∈ rest, s2.isVisible = false ∧ s2.data = none :=
      fun s2 hs2 => h s2 (List.mem_cons_of_mem _ hs2)
    unfold spawnScan
    by_cases hc : c = 0
    · subst hc
      rw [if_pos rfl]
      refine ⟨?_, rfl, fun sl2 h2 => Or.inl (h sl2 h2)⟩
      unfold pActiveCount
      rw [Nat.zero_min]
      apply List.countP_eq_zero.mpr
      intro a ha
      rcases h a ha with ⟨_, hd⟩
      simp [hd]
    · rw [if_neg hc]
      have hcond : (!sl.isVisible && sl.data.isNone) = true := by
        rw [hsl.1, hsl.2]; rfl
      rw [if_pos hcond]
      obtain ⟨hcount, hlen, hprops⟩ := ih (c - 1) (k + 1) hrest
      dsimp only
      refine ⟨?_, ?_, ?_⟩
      · unfold pActiveCount at hcount ⊢
        rw [@List.countP_cons_of_pos Slot (fun sl => sl.data.isSome)
          (Slot.mk true pos colorA (some (mkParticle now pos lt smin smax (rnd k)))) _ rfl]
        rw [hcount]
        simp only [List.length_cons]
        omega
      · simp only [List.length_cons, hlen]
      · intro sl2 h2
        rcases List.mem_cons.mp h2 with rfl | h2t
        · exact Or.inr ⟨rfl, rfl, rfl, k, rfl⟩
        · exact hprops sl2 h2t

theorem spawnParticles_all_inactive {ps : PState}
    (h : ∀ sl ∈ ps.slots, sl.isVisible = false ∧ sl.data = none)
    (pos : Vec3) (color : Color4) (count : Nat) (lt smin smax : ℚ) :
    pActiveCount (spawnParticles ps pos color count lt smin smax).slots =
      min count ps.slots.length ∧
    (spawnParticles ps pos color count lt smin smax).slots.length = ps.slots.length ∧
    (spawnParticles ps pos color count lt smin smax).currentTime = ps.currentTime ∧
    ∀ sl2 ∈ (spawnParticles ps pos color count lt smin smax).slots,
      (sl2.isVisible = false ∧ sl2.data = none) ∨
      (sl2.isVisible = true ∧ sl2.position = pos ∧ sl2.alpha = color.a ∧
        ∃ j, sl2.data = some
          (mkParticle ps.currentTime pos lt smin smax (ps.rnd j))) := by
  obtain ⟨h1, h2, h3⟩ :=
    spawnScan_spec ps.currentTime pos color.a lt smin smax ps.rnd ps.slots count ps.k h
  exact ⟨h1, h2, rfl, h3⟩

/-- The jittered lifetime lies in [0.8·lifetime, 1.2·lifetime] for any
uniform draw in [0,1) and positive base lifetime. -/
theorem mkParticle_lifetime_bounds (now : ℚ) (pos : Vec3) (lt smin smax : ℚ)
    (r : Rnd) (hl : 0 ≤ lt) (hu0 : 0 ≤ r.uLife) (hu1 : r.uLife < 1) :
    (4/5) * lt ≤ (mkParticle now pos lt smin smax r).lifetime ∧
    (mkParticle now pos lt smin smax r).lifetime ≤ (6/5) * lt := by
  unfold mkParticle
  dsimp only
  constructor
  · nlinarith
  · nlinarith

@[simp] theorem mkParticle_startTime (now : ℚ) (pos : Vec3) (lt smin smax : ℚ) (r : Rnd) :
    (mkParticle now pos lt smin smax r).startTime = now := rfl

@[simp] theorem mkParticle_initialPosition (now : ℚ) (pos : Vec3) (lt smin smax : ℚ)
    (r : Rnd) : (mkParticle now pos lt smin smax r).initialPosition = pos := rfl

/-- updateParticle either recycles the slot or keeps its data unchanged. -/
theorem updateParticle_data (now : ℚ) (sl : Slot) :
    (updateParticle now sl).data = none ∨ (updateParticle now sl).data = sl.data := by
  unfold updateParticle
  cases hd : sl.data with
  | none => exact Or.inl rfl
  | some d =>
    dsimp only
    by_cases hage : d.lifetime ≤ now - d.startTime
    · rw [if_pos hage]
      exact Or.inl rfl
    · rw [if_neg hage]
      exact Or.inr rfl

/-- A slot whose particle has outlived its lifetime (or that is
untracked) comes out of updateParticle invisible and untracked. -/
theorem updateParticle_dead {now : ℚ} {sl : Slot}
    (h : sl.data = none ∨ ∃ d, sl.data = some d ∧ d.lifetime ≤ now - d.startTime) :
    (updateParticle now sl).isVisible = false ∧ (updateParticle now sl).data = none := by
  unfold updateParticle
  rcases h with hn | ⟨d, hd, hage⟩
  · rw [hn]
    exact ⟨rfl, rfl⟩
  · rw [hd]
    dsimp only
    rw [if_pos hage]
    exact ⟨rfl, rfl⟩

/-- The surviving branch of updateParticle: closed-form position and
linear alpha fade, forced visible, data untouched. -/
theorem updateParticle_live {now : ℚ} {sl : Slot} {d : ParticleData}
    (hd : (updateParticle now sl).data = some d) :
    sl.data = some d ∧
    (updateParticle now sl).position =
      d.initialPosition.add (d.initialVelocity.scale (now - d.startTime)) ∧
    (updateParticle now sl).alpha = 1 - (now - d.startTime) / d.lifetime ∧
    (updateParticle now sl).isVisible = true := by
  unfold updateParticle at hd ⊢
  cases hd0 : sl.data with
  | none => rw [hd0] at hd; exact absurd hd (by simp)
  | some d0 =>
    rw [hd0] at hd
    dsimp only at hd ⊢
    by_cases hage : d0.lifetime ≤ now - d0.startTime
    · rw [if_pos hage] at hd
      exact absurd hd (by simp)
    · rw [if_neg hage] at hd ⊢
      have hdd : d0 = d := Option.some_inj.mp hd
      subst hdd
      exact ⟨rfl, rfl, rfl, rfl⟩

/-- One ParticleSystem.update pass over a pool whose every tracked
particle has already outlived its jittered lifetime leaves every slot
invisible and untracked. -/
theorem pUpdate_kills {ps : PState} {dt : ℚ}
    (h : ∀ sl ∈ ps.slots, sl.data = none ∨
      ∃ d, sl.data = some d ∧ d.lifetime ≤ ps.currentTime + dt - d.startTime) :
    ∀ sl2 ∈ (pUpdate ps dt).slots, sl2.isVisible = false ∧ sl2.data = none := by
  intro sl2 h2
  obtain ⟨sl, hsl, rfl⟩ := List.mem_map.mp h2
  exact updateParticle_dead (h sl hsl)

/-- pUpdate preserves any property of the tracked data (it never rewrites
data, only drops it). -/
theorem pUpdate_data_subset {ps : PState} {dt : ℚ} {P : ParticleData → Prop}
    (h : ∀ sl ∈ ps.slots, sl.data = none ∨ ∃ d, sl.data = some d ∧ P d) :
    ∀ sl2 ∈ (pUpdate ps dt).slots, sl2.data = none ∨ ∃ d, sl2.data = some d ∧ P d := by
  intro sl2 h2
  obtain ⟨sl, hsl, rfl⟩ := List.mem_map.mp h2
  rcases updateParticle_data (ps.currentTime + dt) sl with hn | heq
  · exact Or.inl hn
  · rw [heq]
    exact h sl hsl

@[simp] theorem pUpdate_currentTime (ps : PState) (dt : ℚ) :
    (pUpdate ps dt).currentTime = ps.currentTime + dt := rfl

@[simp] theorem pUpdate_length (ps : PState) (dt : ℚ) :
    (pUpdate ps dt).slots.length = ps.slots.length := by
  unfold pUpdate
  exact List.length_map _ _

/-- A constant random stream used by concrete particle scenarios. -/
def rndConst : Nat → Rnd := fun _ => ⟨⟨1, 0, 0⟩, 0, 0⟩

/-- Claim C9 (confirmed): spawnParticles(pos, color, 10, lifetime=0.4, …)
on a fresh (capacity ≥ 10) pool activates exactly 10 particles, each with
a jittered lifetime in [0.8·0.4, 1.2·0.4] started at the current clock;
while a particle stays tracked through an update its slot sits at
initialPosition + initialVelocity · age with opacity 1 − age/lifetime and
is visible; after two update(0.4+ε) calls (ε > 0) — enough for the clock
to pass every jittered lifetime — all slots are invisible and untracked,
and a subsequent spawnParticles activates 10 particles again. -/
theorem C9_particle_recycling (n : Nat) (rnd : Nat → Rnd) (eps : ℚ)
    (pos pos2 : Vec3) (color color2 : Color4) (smin smax smin2 smax2 : ℚ)
    (h10 : 10 ≤ n)
    (hu : ∀ k, 0 ≤ (rnd k).uLife ∧ (rnd k).uLife < 1)
    (heps : 0 < eps) :
    pActiveCount (spawnParticles (pInit n rnd) pos color 10 (2/5) smin smax).slots = 10 ∧
    (∀ sl ∈ (spawnParticles (pInit n rnd) pos color 10 (2/5) smin smax).slots,
      sl.data = none ∨
      ∃ d, sl.data = some d ∧ d.startTime = 0 ∧ d.initialPosition = pos ∧
        (4/5) * (2/5) ≤ d.lifetime ∧ d.lifetime ≤ (6/5) * (2/5)) ∧
    (∀ (ps : PState) (dt : ℚ) (i : Nat) (sl2 : Slot) (d : ParticleData),
      (pUpdate ps dt).slots[i]? = some sl2 → sl2.data = some d →
      sl2.position = d.initialPosition.add
        (d.initialVelocity.scale (ps.currentTime + dt - d.startTime)) ∧
      sl2.alpha = 1 - (ps.currentTime + dt - d.startTime) / d.lifetime ∧
      sl2.isVisible = true) ∧
    (∀ sl ∈ (pUpdate (pUpdate (spawnParticles (pInit n rnd) pos color 10 (2/5) smin smax)
        (2/5 + eps)) (2/5 + eps)).slots,
      sl.isVisible = false ∧ sl.data = none) ∧
    pActiveCount (spawnParticles
      (pUpdate (pUpdate (spawnParticles (pInit n rnd) pos color 10 (2/5) smin smax)
        (2/5 + eps)) (2/5 + eps)) pos2 color2 10 (2/5) smin2 smax2).slots = 10 := by
  have hinit : ∀ sl ∈ (pInit n rnd).slots, sl.isVisible = false ∧ sl.data = none := by
    intro sl hsl
    rw [show (pInit n rnd).slots = List.replicate n ⟨false, Vec3.zero, 0, none⟩ from rfl] at hsl
    rw [(List.eq_of_mem_replicate hsl)]
    exact ⟨rfl, rfl⟩
  obtain ⟨hcnt, hlen, hnow, hprops⟩ :=
    spawnParticles_all_inactive hinit pos color 10 (2/5) smin smax
  have hlenn : (pInit n rnd).slots.length = n := List.length_replicate n _
  have hc10 : pActiveCount
      (spawnParticles (pInit n rnd) pos color 10 (2/5) smin smax).slots = 10 := by
    rw [hcnt, hlenn]
    omega
  have hdata : ∀ sl ∈ (spawnParticles (pInit n rnd) pos color 10 (2/5) smin smax).slots,
      sl.data = none ∨
      ∃ d, sl.data = some d ∧ d.startTime = 0 ∧ d.initialPosition = pos ∧
        (4/5) * (2/5) ≤ d.lifetime ∧ d.lifetime ≤ (6/5) * (2/5) := by
    intro sl hsl
    rcases hprops sl hsl with ⟨_, hd⟩ | ⟨_, _, _, j, hd⟩
    · exact Or.inl hd
    · refine Or.inr ⟨_, hd, ?_, ?_, ?_, ?_⟩
      · rw [show (pInit n rnd).currentTime = 0 from rfl]
        rfl
      · rfl
      · exact (mkParticle_lifetime_bounds _ pos _ smin smax _ (by norm_num)
          (hu j).1 (hu j).2).1
      · exact (mkParticle_lifetime_bounds _ pos _ smin smax _ (by norm_num)
          (hu j).1 (hu j).2).2
  have hlive : ∀ (ps : PState) (dt : ℚ) (i : Nat) (sl2 : Slot) (d : ParticleData),
      (pUpdate ps dt).slots[i]? = some sl2 → sl2.data = some d →
      sl2.position = d.initialPosition.add
        (d.initialVelocity.scale (ps.currentTime + dt - d.startTime)) ∧
      sl2.alpha = 1 - (ps.currentTime + dt - d.startTime) / d.lifetime ∧
      sl2.isVisible = true := by
    intro ps dt i sl2 d h1 h2
    rw [show (pUpdate ps dt).slots = ps.slots.map (updateParticle (ps.currentTime + dt))
      from rfl] at h1
    rw [List.getElem?_map] at h1
    cases hsl : ps.slots[i]? with
    | none => rw [hsl] at h1; exact absurd h1 (by simp)
    | some sl1 =>
      rw [hsl] at h1
      have hsl2 : sl2 = updateParticle (ps.currentTime + dt) sl1 :=
        (Option.some_inj.mp h1).symm
      rw [hsl2] at h2 ⊢
      obtain ⟨_, hp, ha, hv⟩ := updateParticle_live h2
      exact ⟨hp, ha, hv⟩
  have hdead : ∀ sl ∈ (pUpdate (pUpdate (spawnParticles (pInit n rnd) pos color 10
      (2/5) smin smax) (2/5 + eps)) (2/5 + eps)).slots,
      sl.isVisible = false ∧ sl.data = none := by
    apply pUpdate_kills
    have hsub := @pUpdate_data_subset
      (spawnParticles (pInit n rnd) pos color 10 (2/5) smin smax) (2/5 + eps)
      (fun d => d.startTime = 0 ∧ d.lifetime ≤ (6/5) * (2/5))
      (by
        intro sl hsl
        rcases hdata sl hsl with hn | ⟨d, hd, hst, _, _, hub⟩
        · exact Or.inl hn
        · exact Or.inr ⟨d, hd, hst, hub⟩)
    intro sl hsl
    rcases hsub sl hsl with hn | ⟨d, hd, hst, hub⟩
    · exact Or.inl hn
    · refine Or.inr ⟨d, hd, ?_⟩
      rw [pUpdate_currentTime, hnow, hst,
        show (pInit n rnd).currentTime = 0 from rfl]
      linarith
  refine ⟨hc10, hdata, hlive, hdead, ?_⟩
  obtain ⟨hcnt2, _, _, _⟩ := spawnParticles_all_inactive hdead pos2 color2 10 (2/5)
    smin2 smax2
  rw [hcnt2, pUpdate_length, pUpdate_length, hlen, hlenn]
  omega

/-- Witness for C9 at a concrete input: capacity 10, a constant random
stream, ε = 1/100. -/
theorem C9_particle_recycling_witness :
    pActiveCount
      (spawnParticles (pInit 10 rndConst) ⟨0, 0, 0⟩ ⟨1, 0, 0, 1⟩ 10 (2/5) 1 4).slots = 10 ∧
    pActiveCount
      (spawnParticles
        (pUpdate (pUpdate (spawnParticles (pInit 10 rndConst) ⟨0, 0, 0⟩ ⟨1, 0, 0, 1⟩
          10 (2/5) 1 4) (2/5 + 1/100)) (2/5 + 1/100))
        ⟨5, 5, 5⟩ ⟨1, 0, 0, 1⟩ 10 (2/5) 1 4).slots = 10 := by
  have h := C9_particle_recycling 10 rndConst (1/100) ⟨0, 0, 0⟩ ⟨5, 5, 5⟩
    ⟨1, 0, 0, 1⟩ ⟨1, 0, 0, 1⟩ 1 4 1 4 (le_refl 10)
    (fun k => by constructor <;> norm_num [rndConst]) (by norm_num)
  exact ⟨h.1, h.2.2.2.2⟩

/-! ## Claim C7 -/

@[simp] theorem spawnParticles_currentTime (ps : PState) (pos : Vec3) (color : Color4)
    (count : Nat) (lt smin smax : ℚ) :
    (spawnParticles ps pos color count lt smin smax).currentTime = ps.currentTime := rfl

@[simp] theorem applySpawnEvent_currentTime (ps : PState) (ev : SpawnEvent) :
    (applySpawnEvent ps ev).currentTime = ps.currentTime := rfl

theorem foldl_applySpawnEvent_currentTime (evs : List SpawnEvent) (ps : PState) :
    (evs.foldl applySpawnEvent ps).currentTime = ps.currentTime := by
  induction evs generalizing ps with
  | nil => rfl
  | cons ev t ih =>
    rw [List.foldl_cons, ih (applySpawnEvent ps ev), applySpawnEvent_currentTime]

/-- Per-slot effect of the spawn scan: a slot is either untouched or
freshly activated with start time equal to the scan's clock. -/
theorem spawnScan_getElem_or (now : ℚ) (pos : Vec3) (colorA lt smin smax : ℚ)
    (rnd : Nat → Rnd) :
    ∀ (slots : List Slot) (c k i : Nat) (sl2 : Slot),
      ((spawnScan now pos colorA lt smin smax rnd slots c k).1)[i]? = some sl2 →
      slots[i]? = some sl2 ∨
      ∃ d, sl2.data = some d ∧ d.startTime = now := by
  intro slots
  induction slots with
  | nil =>
    intro c k i sl2 h
    rw [show (spawnScan now pos colorA lt smin smax rnd [] c k).1 = [] from rfl] at h
    exact absurd h (by simp)
  | cons sl rest ih =>
    intro c k i sl2 h
    unfold spawnScan at h
    by_cases hc : c = 0
    · subst hc
      rw [if_pos rfl] at h
      exact Or.inl h
    · rw [if_neg hc] at h
      by_cases hcond : (!sl.isVisible && sl.data.isNone) = true
      · rw [if_pos hcond] at h
        dsimp only at h
        cases i with
        | zero =>
          rw [List.getElem?_cons_zero] at h
          have hsl2 : sl2 = Slot.mk true pos colorA
              (some (mkParticle now pos lt smin smax (rnd k))) :=
            (Option.some_inj.mp h).symm
          exact Or.inr ⟨_, by rw [hsl2], rfl⟩
        | succ i0 =>
          rw [List.getElem?_cons_succ] at h
          rcases ih (c - 1) (k + 1) i0 sl2 h with hl | hr
          · exact Or.inl (by rw [List.getElem?_cons_succ]; exact hl)
          · exact Or.inr hr
      · rw [if_neg hcond] at h
        dsimp only at h
        cases i with
        | zero =>
          rw [List.getElem?_cons_zero] at h
          exact Or.inl (by rw [List.getElem?_cons_zero]; exact h)
        | succ i0 =>
          rw [List.getElem?_cons_succ] at h
          rcases ih c k i0 sl2 h with hl | hr
          · exact Or.inl (by rw [List.getElem?_cons_succ]; exact hl)
          · exact Or.inr hr

theorem spawnParticles_getElem_or (ps : PState) (pos : Vec3) (color : Color4)
    (count : Nat) (lt smin smax : ℚ) (i : Nat) (sl2 : Slot)
    (h : (spawnParticles ps pos color count lt smin smax).slots[i]? = some sl2) :
    ps.slots[i]? = some sl2 ∨ ∃ d, sl2.data = some d ∧ d.startTime = ps.currentTime := by
  exact spawnScan_getElem_or ps.currentTime pos color.a lt smin smax ps.rnd
    ps.slots count ps.k i sl2 h

theorem foldl_applySpawnEvent_getElem (evs : List SpawnEvent) (ps : PState)
    (i : Nat) (sl2 : Slot)
    (h : (evs.foldl applySpawnEvent ps).slots[i]? = some sl2) :
    ps.slots[i]? = some sl2 ∨ ∃ d, sl2.data = some d ∧ d.startTime = ps.currentTime := by
  induction evs generalizing ps with
  | nil => exact Or.inl h
  | cons ev t ih =>
    rw [List.foldl_cons] at h
    rcases ih (applySpawnEvent ps ev) h with hl | hr
    · exact spawnParticles_getElem_or ps ev.position ev.color ev.count ev.lifetime
        ev.speedMin ev.speedMax i sl2 hl
    · rw [applySpawnEvent_currentTime] at hr
      exact Or.inr hr

/-- Claim C7 (confirmed against the spec-modelled frame pipeline): one
frame advances the particle simulation clock by exactly dt, exactly once —
the per-frame phases run in the order Movement, Bullet aging, Render
mirroring (no modelled-state effect), Collision response, Particle
advance, and the collision response's particle bursts never advance the
clock.  Moreover every particle newly tracked during the frame carries
startTime equal to the pre-advance clock: the bursts are spawned by the
collision response before the single particle advance. -/
theorem C7_pipeline_order (norm : Vec3 → Vec3) (keys : Keys) (fwd rgt : Vec3)
    (dt : ℚ) (g : GState) :
    (specTick norm keys fwd rgt dt g).ps.currentTime = g.ps.currentTime + dt ∧
    (∀ (i : Nat) (sl1 sl2 : Slot) (d : ParticleData),
      g.ps.slots[i]? = some sl1 → sl1.data = none →
      (specTick norm keys fwd rgt dt g).ps.slots[i]? = some sl2 → sl2.data = some d →
      d.startTime = g.ps.currentTime) := by
  have hps : (specTick norm keys fwd rgt dt g).ps =
      pUpdate ((collisionUpdate (preCollision norm keys fwd rgt dt g.bs)).2.foldl
        applySpawnEvent g.ps) dt := rfl
  constructor
  · rw [hps, pUpdate_currentTime, foldl_applySpawnEvent_currentTime]
  · intro i sl1 sl2 d h1 hnone h2 hd
    rw [hps] at h2
    set ps1 : PState := (collisionUpdate (preCollision norm keys fwd rgt dt g.bs)).2.foldl
      applySpawnEvent g.ps with hps1
    rw [show (pUpdate ps1 dt).slots = ps1.slots.map
      (updateParticle (ps1.currentTime + dt)) from rfl, List.getElem?_map] at h2
    cases hsl0 : ps1.slots[i]? with
    | none => rw [hsl0] at h2; exact absurd h2 (by simp)
    | some sl0 =>
      rw [hsl0] at h2
      have hsl2 : sl2 = updateParticle (ps1.currentTime + dt) sl0 :=
        (Option.some_inj.mp h2).symm
      rw [hsl2] at hd
      obtain ⟨hdata0, _, _, _⟩ := updateParticle_live hd
      rcases foldl_applySpawnEvent_getElem _ _ i sl0 hsl0 with hl | ⟨d0, hd0, hst⟩
      · rw [h1] at hl
        have : sl1 = sl0 := Option.some_inj.mp hl
        rw [← this] at hdata0
        rw [hnone] at hdata0
        exact absurd hdata0 (by simp)
      · rw [hd0] at hdata0
        have hdd : d0 = d := Option.some_inj.mp hdata0
        rw [← hdd]
        exact hst

/-- Witness for C7 at a concrete input: one frame with dt = 1 advances the
particle clock from 0 to 0 + 1. -/
theorem C7_pipeline_order_witness :
    (specTick id noKeys ⟨0, 0, 1⟩ ⟨1, 0, 0⟩ 1 ⟨⟨[], []⟩, pInit 1 rndConst⟩).ps.currentTime =
      (pInit 1 rndConst).currentTime + 1 :=
  (C7_pipeline_order id noKeys ⟨0, 0, 1⟩ ⟨1, 0, 0⟩ 1 ⟨⟨[], []⟩, pInit 1 rndConst⟩).1

/-- Witness for C10 at a concrete input: a player with vertical velocity 7
keeps it through a movement update. -/
theorem C10_velocity_y_frame_witness :
    (velocityOf
      (movementUpdate id noKeys ⟨0, 0, 1⟩ ⟨1, 0, 0⟩ 1
        [⟨5, some ⟨0, 0, 0⟩, some ⟨0, 7, 0⟩, none, none, none, true, true⟩]) 5).map Vec3.y =
      some 7 := by
  obtain ⟨v2, hv2, hy⟩ := C10_velocity_y_frame id noKeys ⟨0, 0, 1⟩ ⟨1, 0, 0⟩ 1
    [⟨5, some ⟨0, 0, 0⟩, some ⟨0, 7, 0⟩, none, none, none, true, true⟩] 5
    ⟨5, some ⟨0, 0, 0⟩, some ⟨0, 7, 0⟩, none, none, none, true, true⟩ ⟨0, 7, 0⟩ rfl rfl
  rw [hv2, Option.map_some', hy]

end Rotmg
